import Mathlib

/-!
# TsukinoEventBus: a shallow embedding of `TsukinoEventBus.hpp`

The header defines a priority ordered, type safe event bus (`EventBus`) and the
RAII handle (`SubscriptionHandle`) that `subscribe` returns.

Modelling decisions, all visible in the definitions below:

* An event object is seen through its `const BaseEvent&`; what the bus can observe of
  it is its dynamic type.  `dynamic_cast<const T*>(&event)` is non-null exactly when the
  dynamic type of `event` is `T` or a class derived from `T`.  The class hierarchy is
  written by the consumer of the library, so that relation is a field of `Env`.
* A caller supplied callable (`std::function`) is an opaque value of type `Handler`.
  Running it on an event either returns or throws; that behaviour is the other field
  of `Env`.  An empty `std::function` is a handler that throws.  Handlers do not call
  back into the bus they are registered on (the header iterates `subscribers_` with a
  range-for, so a handler that mutates the vector during `publish` has undefined
  behaviour in C++).  Allocation failure is not modelled.
* `publish` is instrumented: next to the fault that escapes (if any) it returns the
  records whose `callback` it called and the handler invocations that these callbacks
  made, each tagged with the `id` and `priority` of the `Subscriber` record whose
  `callback` made the call.
* `size_t` is 64 bits wide; `nextId_++` wraps at `SIZE_MAX`.  `priority` is an `int`; it is
  only compared, so every `int` is an `Int` and nothing depends on its width.
* `std::stable_sort` is modelled by a stable insertion sort driven by the same
  comparator; the result of a stable sort is determined by the comparator.
* `EventBus*` is an address into a heap of buses; `nullptr` is `none`.
* To state the order of registration for every sequence of calls, also after the id
  counter has wrapped, the calls are replayed on a `Ledger`, which keeps beside each record
  the number of `subscribe` calls that preceded its own.  The ledger is proved to describe
  the same bus (`ledgerRun_bus`) and the same invocations (`ledgerCalls_erase`).
-/

namespace TsukinoEventBus

/-! ## Events, handlers and the consumer supplied environment -/

/-- Name of a class of the event taxonomy (a class derived from `BaseEvent`). -/
abbrev TypeId := Nat

/-- An event object as seen through `const BaseEvent&`. -/
structure BaseEvent where
  dynType : TypeId
  payload : Nat
deriving DecidableEq, Repr

/-- A caller supplied callable (the target of a `std::function`). -/
abbrev Handler := Nat

/-- An exception thrown by a handler. -/
abbrev Fault := Nat

/-- The parts of a program that the library consumer writes. -/
structure Env where
  /-- Whether `derives d T`: class `d` is `T` or is derived from `T`
  (the `dynamic_cast<const T*>` of an object of dynamic type `d` is non-null). -/
  derives : TypeId → TypeId → Bool
  /-- Running a handler on an event: `none` when it returns, `some f` when it throws `f`. -/
  runs : Handler → BaseEvent → Option Fault

/-- The largest value of `size_t`. -/
def SIZE_MAX : Nat := 2 ^ 64 - 1

/-! ## EventBus -/

/-- A type erased `EventBus::Callback`, that is `std::function<void(const BaseEvent&)>`.
`wrapper T callback` is the lambda built by `subscribe<T>` and by
`SubscriptionHandle::updateCallback<T>`; `direct callback` is a callable that a caller
hands to `EventBus::updateCallback` as it is. -/
inductive Callback where
  | wrapper (T : TypeId) (callback : Handler)
  | direct (callback : Handler)
deriving DecidableEq, Repr

/-- The record `EventBus::Subscriber`. -/
structure Subscriber where
  callback : Callback
  priority : Int
  id : Nat
deriving DecidableEq, Repr

/-- The data members of `EventBus`. -/
structure EventBus where
  subscribers_ : List Subscriber
  nextId_ : Nat
deriving DecidableEq, Repr

/-- A default constructed `EventBus`. -/
def EventBus.empty : EventBus := { subscribers_ := [], nextId_ := 0 }

/-- The comparator passed to `std::stable_sort` in `subscribe`. -/
def priorityGreater (lhs rhs : Subscriber) : Bool := decide (lhs.priority > rhs.priority)

/-- Insertion step of the stable sort: `x` stood before every element of the list,
so it stays in front of the first element that `comp` does not put strictly before it. -/
def stableInsert {α : Type} (comp : α → α → Bool) (x : α) : List α → List α
  | [] => [x]
  | y :: ys => if comp y x then y :: stableInsert comp x ys else x :: y :: ys

/-- The function `std::stable_sort(first, last, comp)`. -/
def stable_sort {α : Type} (comp : α → α → Bool) : List α → List α
  | [] => []
  | x :: xs => stableInsert comp x (stable_sort comp xs)

/-- Method `EventBus::subscribe<T>(callback, priority)`; the second component is the id
given to the `SubscriptionHandle` that is returned. -/
def EventBus.subscribe (bus : EventBus) (T : TypeId) (callback : Handler) (priority : Int) :
    EventBus × Nat :=
  let wrapper := Callback.wrapper T callback
  let id := bus.nextId_
  ({ subscribers_ :=
       stable_sort priorityGreater (bus.subscribers_ ++ [{ callback := wrapper, priority := priority, id := id }]),
     nextId_ := (bus.nextId_ + 1) % (SIZE_MAX + 1) }, id)

/-- The loop of `EventBus::updateCallback`: the first record with the id gets the new callback. -/
def updateFirst (id : Nat) (new_callback : Callback) : List Subscriber → Bool × List Subscriber
  | [] => (false, [])
  | subscriber :: rest =>
    if subscriber.id = id then
      (true, { subscriber with callback := new_callback } :: rest)
    else
      ((updateFirst id new_callback rest).1, subscriber :: (updateFirst id new_callback rest).2)

/-- Method `EventBus::updateCallback(id, new_callback)`. -/
def EventBus.updateCallback (bus : EventBus) (id : Nat) (new_callback : Callback) : Bool × EventBus :=
  ((updateFirst id new_callback bus.subscribers_).1,
   { bus with subscribers_ := (updateFirst id new_callback bus.subscribers_).2 })

/-- Method `EventBus::unsubscribe(id)`: erase-remove of every record with the id. -/
def EventBus.unsubscribe (bus : EventBus) (id : Nat) : EventBus :=
  { bus with subscribers_ := bus.subscribers_.filter (fun s => !(decide (s.id = id))) }

/-- One handler invocation made during `publish`, tagged with the record that made it. -/
structure Invocation where
  id : Nat
  priority : Int
  handler : Handler
deriving DecidableEq, Repr

/-- The handler that a type erased callback calls when it is applied to `event`, if any. -/
def Callback.target (env : Env) : Callback → BaseEvent → Option Handler
  | .wrapper T callback, event => if env.derives event.dynType T then some callback else none
  | .direct callback, _ => some callback

/-- The invocations made by `subscriber.callback(event)`. -/
def Subscriber.dispatch (env : Env) (event : BaseEvent) (subscriber : Subscriber) : List Invocation :=
  match subscriber.callback.target env event with
  | some h => [{ id := subscriber.id, priority := subscriber.priority, handler := h }]
  | none => []

/-- The exception that escapes `subscriber.callback(event)`, if any. -/
def Subscriber.fault (env : Env) (event : BaseEvent) (subscriber : Subscriber) : Option Fault :=
  match subscriber.callback.target env event with
  | some h => env.runs h event
  | none => none

/-- What one call of `publish` did: the records whose `callback` it called, in call order,
the handler invocations these callbacks made, in call order, and the exception that escaped,
if any. -/
structure Delivery where
  visited : List Subscriber
  calls : List Invocation
  fault : Option Fault
deriving DecidableEq, Repr

/-- The range-for loop of `EventBus::publish`. -/
def publishLoop (env : Env) (event : BaseEvent) : List Subscriber → Delivery
  | [] => { visited := [], calls := [], fault := none }
  | subscriber :: rest =>
    match subscriber.fault env event with
    | some f =>
      { visited := [subscriber], calls := subscriber.dispatch env event, fault := some f }
    | none =>
      { visited := subscriber :: (publishLoop env event rest).visited,
        calls := subscriber.dispatch env event ++ (publishLoop env event rest).calls,
        fault := (publishLoop env event rest).fault }

/-- Method `EventBus::publish(event)`: the bus after the call and what was delivered. -/
def EventBus.publish (env : Env) (bus : EventBus) (event : BaseEvent) : EventBus × Delivery :=
  (bus, publishLoop env event bus.subscribers_)

/-! ## Sequences of calls on one bus -/

/-- A call of a public method of `EventBus`. -/
inductive Op where
  | subscribe (T : TypeId) (callback : Handler) (priority : Int)
  | updateCallback (id : Nat) (new_callback : Callback)
  | unsubscribe (id : Nat)
  | publish (event : BaseEvent)
deriving DecidableEq, Repr

/-- The bus after one call. -/
def Op.apply (env : Env) (bus : EventBus) : Op → EventBus
  | .subscribe T callback priority => (bus.subscribe T callback priority).1
  | .updateCallback id new_callback => (bus.updateCallback id new_callback).2
  | .unsubscribe id => bus.unsubscribe id
  | .publish event => (bus.publish env event).1

/-- The bus after a sequence of calls. -/
def run (env : Env) : List Op → EventBus → EventBus
  | [], bus => bus
  | op :: ops, bus => run env ops (op.apply env bus)

/-- The ids returned by the `subscribe` calls of a sequence of calls, in call order. -/
def issuedIds (env : Env) : List Op → EventBus → List Nat
  | [], _ => []
  | .subscribe T callback priority :: ops, bus =>
    (bus.subscribe T callback priority).2 ::
      issuedIds env ops ((bus.subscribe T callback priority).1)
  | op :: ops, bus => issuedIds env ops (op.apply env bus)

/-- Number of `subscribe` calls in a sequence of calls. -/
def subscribeCount : List Op → Nat
  | [] => 0
  | .subscribe _ _ _ :: ops => subscribeCount ops + 1
  | _ :: ops => subscribeCount ops

/-! ## SubscriptionHandle -/

/-- Address of an `EventBus` object. -/
abbrev BusPtr := Nat

/-- The `EventBus` objects of the program, by address. -/
abbrev Heap := BusPtr → EventBus

/-- Write to the bus at address `p`. -/
def Heap.store (heap : Heap) (p : BusPtr) (bus : EventBus) : Heap :=
  fun q => if q = p then bus else heap q

/-- The data members of `SubscriptionHandle`; `bus_ = none` is `nullptr`. -/
structure SubscriptionHandle where
  bus_ : Option BusPtr
  id_ : Nat
  released_ : Bool
deriving DecidableEq, Repr

/-- Constructor `SubscriptionHandle(EventBus& bus, size_t id)`. -/
def SubscriptionHandle.ctor (bus : BusPtr) (id : Nat) : SubscriptionHandle :=
  { bus_ := some bus, id_ := id, released_ := false }

/-- The call `bus.subscribe<T>(callback, priority)` on the bus at address `thisBus`:
the heap after the call and the handle that is returned. -/
def subscribe (heap : Heap) (thisBus : BusPtr) (T : TypeId) (callback : Handler) (priority : Int) :
    Heap × SubscriptionHandle :=
  (heap.store thisBus ((heap thisBus).subscribe T callback priority).1,
   SubscriptionHandle.ctor thisBus ((heap thisBus).subscribe T callback priority).2)

/-- Method `SubscriptionHandle::release()`: the result, the handle and the heap after the call. -/
def SubscriptionHandle.release (h : SubscriptionHandle) (heap : Heap) :
    Bool × SubscriptionHandle × Heap :=
  match h.released_, h.bus_ with
  | false, some bus =>
    (true, { h with released_ := true, bus_ := none }, heap.store bus ((heap bus).unsubscribe h.id_))
  | _, _ => (false, h, heap)

/-- The destructor `~SubscriptionHandle()`: calls `release()` and drops the result. -/
def SubscriptionHandle.dtor (h : SubscriptionHandle) (heap : Heap) : Heap :=
  (h.release heap).2.2

/-- The move constructor: the new handle and the moved-from handle. -/
def SubscriptionHandle.moveCtor (other : SubscriptionHandle) :
    SubscriptionHandle × SubscriptionHandle :=
  ({ bus_ := other.bus_, id_ := other.id_, released_ := other.released_ },
   { other with bus_ := none, released_ := true })

/-- Address of a `SubscriptionHandle` object. -/
abbrev HandlePtr := Nat

/-- The move assignment `*this = std::move(other)`, for the handle `self` at address `thisPtr`
and the handle `other` at address `otherPtr`: the assigned-to handle, the moved-from handle and
the heap after the call.  When the addresses are equal the two are one object. -/
def SubscriptionHandle.moveAssign (thisPtr otherPtr : HandlePtr) (self other : SubscriptionHandle)
    (heap : Heap) : SubscriptionHandle × SubscriptionHandle × Heap :=
  if thisPtr ≠ otherPtr then
    ({ bus_ := other.bus_, id_ := other.id_, released_ := other.released_ },
     { other with bus_ := none, released_ := true },
     (self.release heap).2.2)
  else
    (self, other, heap)

/-- Method `SubscriptionHandle::updateCallback<T>(newCallback)`. -/
def SubscriptionHandle.updateCallback (h : SubscriptionHandle) (heap : Heap) (T : TypeId)
    (newCallback : Handler) : Bool × Heap :=
  match h.released_, h.bus_ with
  | false, some bus =>
    (((heap bus).updateCallback h.id_ (Callback.wrapper T newCallback)).1,
     heap.store bus ((heap bus).updateCallback h.id_ (Callback.wrapper T newCallback)).2)
  | _, _ => (false, heap)

/-! ## Dispatch order -/

/-- The sort key of a record or of an invocation: priority and id. -/
abbrev Key := Int × Nat

/-- The dispatch order on keys: priority does not increase, and among equal priorities the
id increases. -/
def keyBefore (a b : Key) : Prop := b.1 ≤ a.1 ∧ (a.1 = b.1 → a.2 < b.2)

/-- Key of a record. -/
def Subscriber.key (s : Subscriber) : Key := (s.priority, s.id)

/-- Key of an invocation. -/
def Invocation.key (c : Invocation) : Key := (c.priority, c.id)

/-- The order in which two invocations of one `publish` are claimed to happen: the earlier
one has a priority that is not lower, and for equal priorities the smaller id. -/
def Invocation.before (a b : Invocation) : Prop :=
  b.priority ≤ a.priority ∧ (a.priority = b.priority → a.id < b.id)

/-- The same order on the records of the registry. -/
def Subscriber.before (a b : Subscriber) : Prop :=
  b.priority ≤ a.priority ∧ (a.priority = b.priority → a.id < b.id)

instance (a b : Key) : Decidable (keyBefore a b) := by
  unfold keyBefore
  exact inferInstance

instance (a b : Invocation) : Decidable (Invocation.before a b) := by
  unfold Invocation.before
  exact inferInstance

instance (a b : Subscriber) : Decidable (Subscriber.before a b) := by
  unfold Subscriber.before
  exact inferInstance

/-! ## Concrete inputs -/

/-- A consumer whose classes are unrelated to each other and whose handlers all return. -/
def quietEnv : Env := { derives := fun d T => d == T, runs := fun _ _ => none }

/-- A consumer whose handler `7` throws the exception `1`; every other handler returns. -/
def faultyEnv : Env :=
  { derives := fun d T => d == T, runs := fun h _ => if h = 7 then some 1 else none }

/-- The classes of `example3_inheritance.cpp`: `0` is `BaseEvent`, `1` is `BaseGameEvent`,
`2` is `PlayerJoinedEvent` and `3` is `ScoreUpdatedEvent`; the handlers return. -/
def gameEnv : Env :=
  { derives := fun d T => d == T || T == 0 || (T == 1 && (d == 2 || d == 3)),
    runs := fun _ _ => none }

/-- `n` rounds of `subscribe` followed by `unsubscribe` of the id just returned, on a bus
whose counter stands at `k`. -/
def churnOps (k : Nat) : Nat → List Op
  | 0 => []
  | n + 1 => Op.subscribe 0 0 0 :: Op.unsubscribe k :: churnOps (k + 1) n

/-- As many rounds of subscribe and unsubscribe as bring the counter to `SIZE_MAX`, then two
more subscriptions of equal priority. -/
def wrapOps : List Op :=
  churnOps 0 SIZE_MAX ++ [Op.subscribe 0 1 0, Op.subscribe 0 2 0]

/-! ## Registration numbers -/

/-- A record of the registry together with its registration number: the number of
`subscribe` calls made on the bus before the call that created the record.  The header keeps
no such number (below `SIZE_MAX + 1` subscriptions the id is this number); it is carried
beside the registry to say in which order the records were registered. -/
structure Registered where
  subscriber : Subscriber
  stamp : Nat
deriving DecidableEq, Repr

/-- The registry with registration numbers: the records in their stored order, each with its
number, the id counter, and the number of `subscribe` calls made so far. -/
structure Ledger where
  entries : List Registered
  nextId_ : Nat
  count : Nat
deriving DecidableEq, Repr

/-- The ledger of a default constructed `EventBus`. -/
def Ledger.empty : Ledger := { entries := [], nextId_ := 0, count := 0 }

/-- The bus that a ledger describes: the registration numbers are dropped. -/
def Ledger.bus (ledger : Ledger) : EventBus :=
  { subscribers_ := ledger.entries.map (fun e => e.subscriber), nextId_ := ledger.nextId_ }

/-- The loop of `EventBus::updateCallback` on records that carry their registration number. -/
def updateFirstEntry (id : Nat) (new_callback : Callback) : List Registered → List Registered
  | [] => []
  | e :: rest =>
    if e.subscriber.id = id then
      { e with subscriber := { e.subscriber with callback := new_callback } } :: rest
    else
      e :: updateFirstEntry id new_callback rest

/-- One call on the bus, carried out on the ledger: `subscribe` gives the new record the
number of earlier `subscribe` calls; no call changes the number of a record. -/
def Op.applyLedger (ledger : Ledger) : Op → Ledger
  | .subscribe T callback priority =>
    { entries :=
        stable_sort (fun lhs rhs => priorityGreater lhs.subscriber rhs.subscriber)
          (ledger.entries ++
            [{ subscriber :=
                 { callback := Callback.wrapper T callback, priority := priority,
                   id := ledger.nextId_ },
               stamp := ledger.count }]),
      nextId_ := (ledger.nextId_ + 1) % (SIZE_MAX + 1),
      count := ledger.count + 1 }
  | .updateCallback id new_callback =>
    { ledger with entries := updateFirstEntry id new_callback ledger.entries }
  | .unsubscribe id =>
    { ledger with entries := ledger.entries.filter (fun e => !(decide (e.subscriber.id = id))) }
  | .publish _ => ledger

/-- The ledger after a sequence of calls. -/
def ledgerRun : List Op → Ledger → Ledger
  | [], ledger => ledger
  | op :: ops, ledger => ledgerRun ops (op.applyLedger ledger)

/-- The handler invocations of one `publish`, each with the registration number of the
record whose callback made it: the loop of `publishLoop` on records that carry their
number. -/
def ledgerCalls (env : Env) (event : BaseEvent) : List Registered → List (Invocation × Nat)
  | [] => []
  | e :: rest =>
    match e.subscriber.fault env event with
    | some _ => (e.subscriber.dispatch env event).map (fun c => (c, e.stamp))
    | none =>
      (e.subscriber.dispatch env event).map (fun c => (c, e.stamp)) ++
        ledgerCalls env event rest

/-- The order of registration within a priority: the earlier record has a priority that is
not lower, and for equal priorities the smaller registration number. -/
def Registered.before (a b : Registered) : Prop :=
  b.subscriber.priority ≤ a.subscriber.priority ∧
    (a.subscriber.priority = b.subscriber.priority → a.stamp < b.stamp)

/-- The same order on invocations that carry the registration number of their record. -/
def callBefore (a b : Invocation × Nat) : Prop :=
  b.1.priority ≤ a.1.priority ∧ (a.1.priority = b.1.priority → a.2 < b.2)

instance (a b : Registered) : Decidable (Registered.before a b) := by
  unfold Registered.before
  exact inferInstance

instance (a b : Invocation × Nat) : Decidable (callBefore a b) := by
  unfold callBefore
  exact inferInstance

/-- Invariant of a bus on which `c` subscriptions have been made and the counter has not
wrapped: the counter stands at `c`, every live id is below `c`, and the records are in
dispatch order. -/
def Fresh (c : Nat) (bus : EventBus) : Prop :=
  bus.nextId_ = c % (SIZE_MAX + 1) ∧ (∀ s ∈ bus.subscribers_, s.id < c) ∧
    bus.subscribers_.Pairwise Subscriber.before

instance (c : Nat) (bus : EventBus) : Decidable (Fresh c bus) := by
  unfold Fresh
  exact inferInstance

/-- The handle states that a program can produce: the constructor makes one, and
`release()`, the move constructor and the move assignment (for the handle assigned to and for
the handle moved from) lead from producible states to producible states.
`updateCallback` and the destructor write no data member. -/
inductive SubscriptionHandle.Reachable : SubscriptionHandle → Prop where
  | ctor (bus : BusPtr) (id : Nat) : Reachable (SubscriptionHandle.ctor bus id)
  | release (h : SubscriptionHandle) (heap : Heap) : Reachable h → Reachable (h.release heap).2.1
  | moveCtorNew (other : SubscriptionHandle) : Reachable other → Reachable other.moveCtor.1
  | moveCtorOther (other : SubscriptionHandle) : Reachable other → Reachable other.moveCtor.2
  | moveAssignThis (thisPtr otherPtr : HandlePtr) (self other : SubscriptionHandle) (heap : Heap) :
      Reachable self → Reachable other →
      Reachable (SubscriptionHandle.moveAssign thisPtr otherPtr self other heap).1
  | moveAssignOther (thisPtr otherPtr : HandlePtr) (self other : SubscriptionHandle) (heap : Heap) :
      Reachable self → Reachable other →
      Reachable (SubscriptionHandle.moveAssign thisPtr otherPtr self other heap).2.1

/-! ## Lemmas on the stable sort -/

theorem mem_stableInsert {α : Type} (comp : α → α → Bool) (x z : α) (l : List α) :
    z ∈ stableInsert comp x l ↔ z = x ∨ z ∈ l := by
  induction l with
  | nil => simp [stableInsert]
  | cons y ys ih =>
    unfold stableInsert
    split
    · simp only [List.mem_cons, ih]
      tauto
    · simp only [List.mem_cons]

theorem mem_stable_sort {α : Type} (comp : α → α → Bool) (z : α) (l : List α) :
    z ∈ stable_sort comp l ↔ z ∈ l := by
  induction l with
  | nil => simp [stable_sort]
  | cons y ys ih => simp only [stable_sort, mem_stableInsert, ih, List.mem_cons]

theorem perm_stableInsert {α : Type} (comp : α → α → Bool) (x : α) (l : List α) :
    (stableInsert comp x l).Perm (x :: l) := by
  induction l with
  | nil => exact List.Perm.refl _
  | cons y ys ih =>
    unfold stableInsert
    split
    · exact (List.Perm.cons y ih).trans (List.Perm.swap x y ys)
    · exact List.Perm.refl _

/-- The model of `std::stable_sort` rearranges the elements and loses none. -/
theorem perm_stable_sort {α : Type} (comp : α → α → Bool) (l : List α) :
    (stable_sort comp l).Perm l := by
  induction l with
  | nil => exact List.Perm.refl _
  | cons y ys ih => exact (perm_stableInsert comp y _).trans (List.Perm.cons y ih)

theorem filter_stableInsert (p : Int) (a : Subscriber) (m : List Subscriber) :
    (stableInsert priorityGreater a m).filter (fun s => decide (s.priority = p)) =
      (a :: m).filter (fun s => decide (s.priority = p)) := by
  induction m with
  | nil => rfl
  | cons y ys ih =>
    unfold stableInsert
    split
    · rename_i hc
      have hgt : y.priority > a.priority := by simpa [priorityGreater] using hc
      rw [List.filter_cons, ih]
      by_cases hy : y.priority = p
      · have ha : a.priority ≠ p := by omega
        simp [List.filter_cons, hy, ha]
      · simp [List.filter_cons, hy]
    · rfl

/-- The model of `std::stable_sort` is stable: records of one priority keep their order. -/
theorem stable_sort_stable (p : Int) (l : List Subscriber) :
    (stable_sort priorityGreater l).filter (fun s => decide (s.priority = p)) =
      l.filter (fun s => decide (s.priority = p)) := by
  induction l with
  | nil => rfl
  | cons y ys ih =>
    show (stableInsert priorityGreater y (stable_sort priorityGreater ys)).filter _ = _
    rw [filter_stableInsert, List.filter_cons, List.filter_cons, ih]

theorem stable_sort_append_singleton {α : Type} (comp : α → α → Bool) (x : α) (l : List α) :
    stable_sort comp (l ++ [x]) = l.foldr (stableInsert comp) [x] := by
  induction l with
  | nil => simp [stable_sort, stableInsert]
  | cons y ys ih =>
    show stableInsert comp y (stable_sort comp (ys ++ [x])) = _
    rw [ih, List.foldr_cons]

theorem pairwise_stableInsert (a : Subscriber) (m : List Subscriber)
    (hm : m.Pairwise Subscriber.before)
    (ha : ∀ b ∈ m, b.priority = a.priority → a.id < b.id) :
    (stableInsert priorityGreater a m).Pairwise Subscriber.before := by
  induction m with
  | nil => simp [stableInsert]
  | cons y ys ih =>
    rw [List.pairwise_cons] at hm
    unfold stableInsert
    split
    · rename_i hc
      have hgt : y.priority > a.priority := by simpa [priorityGreater] using hc
      rw [List.pairwise_cons]
      refine ⟨?_, ih hm.2 (fun b hb => ha b (List.mem_cons_of_mem _ hb))⟩
      intro z hz
      rcases (mem_stableInsert _ _ _ _).1 hz with rfl | hz
      · exact ⟨le_of_lt hgt, fun h => absurd h (ne_of_gt hgt)⟩
      · exact hm.1 z hz
    · rename_i hc
      have hle : y.priority ≤ a.priority := by simpa [priorityGreater] using hc
      rw [List.pairwise_cons]
      refine ⟨?_, List.pairwise_cons.2 hm⟩
      intro z hz
      have hzy : z.priority ≤ y.priority := by
        rcases List.mem_cons.1 hz with rfl | hz'
        · exact le_refl _
        · exact (hm.1 z hz').1
      exact ⟨le_trans hzy hle, fun h => ha z hz h.symm⟩

theorem pairwise_foldr_stableInsert (x : Subscriber) (l : List Subscriber)
    (hl : l.Pairwise Subscriber.before) (hx : ∀ b ∈ l, b.id < x.id) :
    (l.foldr (stableInsert priorityGreater) [x]).Pairwise Subscriber.before ∧
      ∀ z, z ∈ l.foldr (stableInsert priorityGreater) [x] ↔ z = x ∨ z ∈ l := by
  induction l with
  | nil => simp
  | cons y ys ih =>
    rw [List.pairwise_cons] at hl
    have ih2 := ih hl.2 (fun b hb => hx b (List.mem_cons_of_mem _ hb))
    constructor
    · rw [List.foldr_cons]
      apply pairwise_stableInsert _ _ ih2.1
      intro b hb hp
      rcases (ih2.2 b).1 hb with rfl | hb'
      · exact hx y (List.mem_cons_self _ _)
      · exact (hl.1 b hb').2 hp.symm
    · intro z
      rw [List.foldr_cons, mem_stableInsert, ih2.2 z, List.mem_cons]
      tauto

/-! ## Lemmas on the registry operations -/

theorem pairwise_before_iff_keys (l : List Subscriber) :
    l.Pairwise Subscriber.before ↔ (l.map Subscriber.key).Pairwise keyBefore := by
  rw [List.pairwise_map]
  rfl

theorem pairwise_calls_iff_keys (l : List Invocation) :
    l.Pairwise Invocation.before ↔ (l.map Invocation.key).Pairwise keyBefore := by
  rw [List.pairwise_map]
  rfl

theorem updateFirst_keys (id : Nat) (f : Callback) (l : List Subscriber) :
    (updateFirst id f l).2.map Subscriber.key = l.map Subscriber.key := by
  induction l with
  | nil => rfl
  | cons y ys ih =>
    unfold updateFirst
    split
    · rfl
    · simp only [List.map_cons, ih]

theorem updateFirst_ids (id : Nat) (f : Callback) (l : List Subscriber) :
    (updateFirst id f l).2.map (fun s => s.id) = l.map (fun s => s.id) := by
  have h := congrArg (List.map Prod.snd) (updateFirst_keys id f l)
  simpa [List.map_map, Function.comp_def, Subscriber.key] using h

theorem subscribe_subscribers (bus : EventBus) (T : TypeId) (callback : Handler) (priority : Int) :
    (bus.subscribe T callback priority).1.subscribers_ =
      bus.subscribers_.foldr (stableInsert priorityGreater)
        [{ callback := Callback.wrapper T callback, priority := priority, id := bus.nextId_ }] := by
  simp only [EventBus.subscribe, stable_sort_append_singleton]

theorem mem_subscribe (bus : EventBus) (T : TypeId) (callback : Handler) (priority : Int)
    (z : Subscriber) :
    z ∈ (bus.subscribe T callback priority).1.subscribers_ ↔
      z = { callback := Callback.wrapper T callback, priority := priority, id := bus.nextId_ } ∨
        z ∈ bus.subscribers_ := by
  simp only [EventBus.subscribe, mem_stable_sort, List.mem_append, List.mem_singleton]
  tauto

theorem dispatch_keys (env : Env) (event : BaseEvent) (s : Subscriber) :
    (s.dispatch env event).map Invocation.key = [] ∨
      (s.dispatch env event).map Invocation.key = [s.key] := by
  unfold Subscriber.dispatch
  split
  · right; rfl
  · left; rfl

theorem calls_keys_sublist (env : Env) (event : BaseEvent) (l : List Subscriber) :
    ((publishLoop env event l).calls.map Invocation.key).Sublist (l.map Subscriber.key) := by
  induction l with
  | nil => simp [publishLoop]
  | cons y ys ih =>
    unfold publishLoop
    split
    · rcases dispatch_keys env event y with h | h
      · simp only [h, List.map_cons]
        exact List.nil_sublist _
      · simp only [h, List.map_cons]
        exact List.Sublist.cons₂ _ (List.nil_sublist _)
    · rcases dispatch_keys env event y with h | h
      · simp only [List.map_append, h, List.nil_append, List.map_cons]
        exact List.Sublist.cons _ ih
      · simp only [List.map_append, h, List.map_cons, List.singleton_append]
        exact List.Sublist.cons₂ _ ih

theorem fresh_apply_other (env : Env) (c : Nat) (bus : EventBus) (op : Op) (h : Fresh c bus)
    (hop : ∀ T callback priority, op ≠ Op.subscribe T callback priority) :
    Fresh c (op.apply env bus) := by
  obtain ⟨h1, h2, h3⟩ := h
  cases op with
  | subscribe T callback priority => exact absurd rfl (hop T callback priority)
  | updateCallback id f =>
    refine ⟨h1, ?_, ?_⟩
    · intro s hs
      have hmem : s.id ∈ (updateFirst id f bus.subscribers_).2.map (fun s => s.id) :=
        List.mem_map_of_mem _ hs
      rw [updateFirst_ids] at hmem
      obtain ⟨b, hb, hbe⟩ := List.mem_map.1 hmem
      rw [← hbe]
      exact h2 b hb
    · show (updateFirst id f bus.subscribers_).2.Pairwise Subscriber.before
      rw [pairwise_before_iff_keys, updateFirst_keys, ← pairwise_before_iff_keys]
      exact h3
  | unsubscribe id =>
    refine ⟨h1, ?_, ?_⟩
    · intro s hs
      exact h2 s (List.mem_of_mem_filter hs)
    · exact List.Pairwise.sublist (List.filter_sublist _) h3
  | publish event => exact ⟨h1, h2, h3⟩

theorem fresh_subscribe (c : Nat) (bus : EventBus) (T : TypeId) (callback : Handler)
    (priority : Int) (h : Fresh c bus) (hc : c < SIZE_MAX + 1) :
    Fresh (c + 1) (bus.subscribe T callback priority).1 ∧
      (bus.subscribe T callback priority).2 = c := by
  obtain ⟨h1, h2, h3⟩ := h
  have hn : bus.nextId_ = c := by rw [h1, Nat.mod_eq_of_lt hc]
  have hf := pairwise_foldr_stableInsert
    { callback := Callback.wrapper T callback, priority := priority, id := bus.nextId_ }
    bus.subscribers_ h3 (fun b hb => by rw [hn]; exact h2 b hb)
  refine ⟨⟨?_, ?_, ?_⟩, hn⟩
  · show (bus.nextId_ + 1) % (SIZE_MAX + 1) = (c + 1) % (SIZE_MAX + 1)
    rw [hn]
  · intro s hs
    rcases (mem_subscribe bus T callback priority s).1 hs with rfl | hs'
    · show bus.nextId_ < c + 1
      omega
    · exact Nat.lt_succ_of_lt (h2 s hs')
  · rw [subscribe_subscribers]
    exact hf.1

theorem fresh_run (env : Env) (ops : List Op) :
    ∀ (c : Nat) (bus : EventBus), Fresh c bus → c + subscribeCount ops ≤ SIZE_MAX + 1 →
      Fresh (c + subscribeCount ops) (run env ops bus) ∧
        issuedIds env ops bus = List.range' c (subscribeCount ops) := by
  induction ops with
  | nil =>
    intro c bus h _
    exact ⟨h, rfl⟩
  | cons op ops ih =>
    intro c bus h hc
    cases op with
    | subscribe T callback priority =>
      simp only [subscribeCount] at hc ⊢
      have hs := fresh_subscribe c bus T callback priority h (by omega)
      have := ih (c + 1) (bus.subscribe T callback priority).1 hs.1 (by omega)
      have e : c + (subscribeCount ops + 1) = c + 1 + subscribeCount ops := by omega
      rw [e]
      refine ⟨this.1, ?_⟩
      simp only [issuedIds, this.2, hs.2, List.range'_succ]
    | updateCallback id f =>
      exact ih c _ (fresh_apply_other env c bus _ h (by intro _ _ _ hh; cases hh)) hc
    | unsubscribe id =>
      exact ih c _ (fresh_apply_other env c bus _ h (by intro _ _ _ hh; cases hh)) hc
    | publish event =>
      exact ih c _ (fresh_apply_other env c bus _ h (by intro _ _ _ hh; cases hh)) hc

theorem fresh_empty : Fresh 0 EventBus.empty := by
  refine ⟨rfl, ?_, List.Pairwise.nil⟩
  intro s hs
  cases hs

/-! ## Lemmas on sequences of calls -/

theorem run_append (env : Env) (a b : List Op) :
    ∀ bus : EventBus, run env (a ++ b) bus = run env b (run env a bus) := by
  induction a with
  | nil => intro bus; rfl
  | cons op ops ih => intro bus; exact ih _

theorem issuedIds_append (env : Env) (a b : List Op) :
    ∀ bus : EventBus,
      issuedIds env (a ++ b) bus = issuedIds env a bus ++ issuedIds env b (run env a bus) := by
  induction a with
  | nil => intro bus; rfl
  | cons op ops ih =>
    intro bus
    cases op with
    | subscribe T callback priority =>
      show (bus.subscribe T callback priority).2 ::
        issuedIds env (ops ++ b) (bus.subscribe T callback priority).1 = _
      rw [ih]
      rfl
    | updateCallback id f => exact ih _
    | unsubscribe id => exact ih _
    | publish event => exact ih _

theorem churn_round (k : Nat) (hk : k < SIZE_MAX) :
    (EventBus.subscribe { subscribers_ := [], nextId_ := k } 0 0 0).1.unsubscribe k =
      { subscribers_ := [], nextId_ := k + 1 } := by
  have hm : (k + 1) % (SIZE_MAX + 1) = k + 1 := Nat.mod_eq_of_lt (by omega)
  simp [EventBus.subscribe, EventBus.unsubscribe, stable_sort, stableInsert, hm]

theorem run_churnOps (env : Env) (n : Nat) :
    ∀ k : Nat, k + n ≤ SIZE_MAX →
      run env (churnOps k n) { subscribers_ := [], nextId_ := k } =
          { subscribers_ := [], nextId_ := k + n } ∧
        issuedIds env (churnOps k n) { subscribers_ := [], nextId_ := k } = List.range' k n := by
  induction n with
  | zero => intro k _; exact ⟨rfl, rfl⟩
  | succ n ih =>
    intro k hk
    have hr := churn_round k (by omega)
    have h := ih (k + 1) (by omega)
    have e : k + 1 + n = k + (n + 1) := by omega
    constructor
    · show run env (churnOps (k + 1) n)
        ((EventBus.subscribe { subscribers_ := [], nextId_ := k } 0 0 0).1.unsubscribe k) = _
      rw [hr, h.1, e]
    · show (EventBus.subscribe { subscribers_ := [], nextId_ := k } 0 0 0).2 ::
        issuedIds env (churnOps (k + 1) n)
          ((EventBus.subscribe { subscribers_ := [], nextId_ := k } 0 0 0).1.unsubscribe k) = _
      rw [hr, h.2, List.range'_succ]
      rfl

theorem run_wrapOps (env : Env) :
    run env wrapOps EventBus.empty =
      { subscribers_ :=
          [{ callback := Callback.wrapper 0 1, priority := 0, id := SIZE_MAX },
           { callback := Callback.wrapper 0 2, priority := 0, id := 0 }],
        nextId_ := 1 } := by
  have h := (run_churnOps env SIZE_MAX 0 (by omega)).1
  rw [Nat.zero_add] at h
  unfold wrapOps
  rw [run_append]
  show run env _ (run env (churnOps 0 SIZE_MAX) { subscribers_ := [], nextId_ := 0 }) = _
  rw [h]
  rfl

theorem issuedIds_wrapOps (env : Env) :
    issuedIds env wrapOps EventBus.empty = List.range' 0 SIZE_MAX ++ [SIZE_MAX, 0] := by
  have h := run_churnOps env SIZE_MAX 0 (by omega)
  rw [Nat.zero_add] at h
  unfold wrapOps
  rw [issuedIds_append]
  show issuedIds env (churnOps 0 SIZE_MAX) { subscribers_ := [], nextId_ := 0 } ++
    issuedIds env _ (run env (churnOps 0 SIZE_MAX) { subscribers_ := [], nextId_ := 0 }) = _
  rw [h.1, h.2]
  rfl

/-! ## Priority order alone, which no counter value can disturb -/

theorem priority_sorted_stableInsert (a : Subscriber) (m : List Subscriber)
    (hm : m.Pairwise (fun x y => y.priority ≤ x.priority)) :
    (stableInsert priorityGreater a m).Pairwise (fun x y => y.priority ≤ x.priority) := by
  induction m with
  | nil => simp [stableInsert]
  | cons y ys ih =>
    rw [List.pairwise_cons] at hm
    unfold stableInsert
    split
    · rename_i hc
      have hgt : y.priority > a.priority := by simpa [priorityGreater] using hc
      rw [List.pairwise_cons]
      refine ⟨?_, ih hm.2⟩
      intro z hz
      rcases (mem_stableInsert _ _ _ _).1 hz with rfl | hz
      · exact le_of_lt hgt
      · exact hm.1 z hz
    · rename_i hc
      have hle : y.priority ≤ a.priority := by simpa [priorityGreater] using hc
      rw [List.pairwise_cons]
      refine ⟨?_, List.pairwise_cons.2 hm⟩
      intro z hz
      rcases List.mem_cons.1 hz with rfl | hz'
      · exact hle
      · exact le_trans (hm.1 z hz') hle

/-- The model of `std::stable_sort` sorts: no record is followed by one that the comparator
puts before it. -/
theorem priority_sorted_stable_sort (l : List Subscriber) :
    (stable_sort priorityGreater l).Pairwise (fun x y => y.priority ≤ x.priority) := by
  induction l with
  | nil => exact List.Pairwise.nil
  | cons y ys ih => exact priority_sorted_stableInsert y _ ih

theorem priority_sorted_apply (env : Env) (bus : EventBus) (op : Op)
    (h : bus.subscribers_.Pairwise (fun x y => y.priority ≤ x.priority)) :
    (op.apply env bus).subscribers_.Pairwise (fun x y => y.priority ≤ x.priority) := by
  cases op with
  | subscribe T callback priority => exact priority_sorted_stable_sort _
  | updateCallback id f =>
    show (updateFirst id f bus.subscribers_).2.Pairwise _
    have e : ∀ l : List Subscriber, l.Pairwise (fun x y => y.priority ≤ x.priority) ↔
        (l.map Subscriber.key).Pairwise (fun x y => y.1 ≤ x.1) := by
      intro l
      rw [List.pairwise_map]
      rfl
    rw [e, updateFirst_keys, ← e]
    exact h
  | unsubscribe id => exact List.Pairwise.sublist (List.filter_sublist _) h
  | publish event => exact h

theorem priority_sorted_run (env : Env) (ops : List Op) :
    ∀ bus : EventBus, bus.subscribers_.Pairwise (fun x y => y.priority ≤ x.priority) →
      (run env ops bus).subscribers_.Pairwise (fun x y => y.priority ≤ x.priority) := by
  induction ops with
  | nil => intro bus h; exact h
  | cons op ops ih => intro bus h; exact ih _ (priority_sorted_apply env bus op h)

theorem calls_priority_sorted (env : Env) (event : BaseEvent) (l : List Subscriber)
    (h : l.Pairwise (fun x y => y.priority ≤ x.priority)) :
    (publishLoop env event l).calls.Pairwise (fun x y => y.priority ≤ x.priority) := by
  have e1 : ∀ l : List Subscriber, l.Pairwise (fun x y => y.priority ≤ x.priority) ↔
      (l.map Subscriber.key).Pairwise (fun x y => y.1 ≤ x.1) := by
    intro l
    rw [List.pairwise_map]
    rfl
  have e2 : ∀ l : List Invocation, l.Pairwise (fun x y => y.priority ≤ x.priority) ↔
      (l.map Invocation.key).Pairwise (fun x y => y.1 ≤ x.1) := by
    intro l
    rw [List.pairwise_map]
    rfl
  rw [e2]
  exact List.Pairwise.sublist (calls_keys_sublist env event l) ((e1 l).1 h)

/-! ## Lemmas on registration numbers -/

theorem stableInsert_map {α β : Type} (f : α → β) (comp : β → β → Bool) (x : α) (l : List α) :
    (stableInsert (fun a b => comp (f a) (f b)) x l).map f = stableInsert comp (f x) (l.map f) := by
  induction l with
  | nil => rfl
  | cons y ys ih =>
    show (if comp (f y) (f x) = true then
        y :: stableInsert (fun a b => comp (f a) (f b)) x ys else x :: y :: ys).map f =
      (if comp (f y) (f x) = true then f y :: stableInsert comp (f x) (ys.map f)
        else f x :: f y :: ys.map f)
    split
    · rw [List.map_cons, ih]
    · rfl

theorem stable_sort_map {α β : Type} (f : α → β) (comp : β → β → Bool) (l : List α) :
    (stable_sort (fun a b => comp (f a) (f b)) l).map f = stable_sort comp (l.map f) := by
  induction l with
  | nil => rfl
  | cons y ys ih =>
    show (stableInsert (fun a b => comp (f a) (f b)) y
        (stable_sort (fun a b => comp (f a) (f b)) ys)).map f =
      stableInsert comp (f y) (stable_sort comp (ys.map f))
    rw [stableInsert_map, ih]

theorem updateFirstEntry_map (id : Nat) (f : Callback) (l : List Registered) :
    (updateFirstEntry id f l).map (fun e => e.subscriber) =
      (updateFirst id f (l.map (fun e => e.subscriber))).2 := by
  induction l with
  | nil => rfl
  | cons y ys ih =>
    rw [List.map_cons]
    unfold updateFirstEntry updateFirst
    split
    · rfl
    · rw [List.map_cons, ih]

theorem updateFirstEntry_keys (id : Nat) (f : Callback) (l : List Registered) :
    (updateFirstEntry id f l).map (fun e => (e.subscriber.priority, e.stamp, e.subscriber.id)) =
      l.map (fun e => (e.subscriber.priority, e.stamp, e.subscriber.id)) := by
  induction l with
  | nil => rfl
  | cons y ys ih =>
    unfold updateFirstEntry
    split
    · rfl
    · rw [List.map_cons, List.map_cons, ih]

theorem applyLedger_bus (env : Env) (ledger : Ledger) (op : Op) :
    (op.applyLedger ledger).bus = op.apply env ledger.bus := by
  cases op with
  | subscribe T callback priority =>
    have h : ∀ l : List Registered,
        (stable_sort (fun lhs rhs => priorityGreater lhs.subscriber rhs.subscriber) l).map
            (fun e => e.subscriber) =
          stable_sort priorityGreater (l.map (fun e => e.subscriber)) :=
      fun l => stable_sort_map (fun e : Registered => e.subscriber) priorityGreater l
    simp only [Op.applyLedger, Ledger.bus, Op.apply, EventBus.subscribe, h, List.map_append,
      List.map_cons, List.map_nil]
  | updateCallback id f =>
    simp only [Op.applyLedger, Ledger.bus, Op.apply, EventBus.updateCallback,
      updateFirstEntry_map]
  | unsubscribe id =>
    simp only [Op.applyLedger, Ledger.bus, Op.apply, EventBus.unsubscribe, List.filter_map]
    rfl
  | publish event => rfl

theorem ledgerRun_bus (env : Env) (ops : List Op) :
    ∀ ledger : Ledger, (ledgerRun ops ledger).bus = run env ops ledger.bus := by
  induction ops with
  | nil => intro ledger; rfl
  | cons op ops ih =>
    intro ledger
    show (ledgerRun ops (op.applyLedger ledger)).bus = run env ops (op.apply env ledger.bus)
    rw [ih, applyLedger_bus env]

theorem ledgerRun_count (ops : List Op) :
    ∀ ledger : Ledger, (ledgerRun ops ledger).count = ledger.count + subscribeCount ops := by
  induction ops with
  | nil => intro ledger; rfl
  | cons op ops ih =>
    intro ledger
    show (ledgerRun ops (op.applyLedger ledger)).count = _
    rw [ih]
    cases op with
    | subscribe T callback priority =>
      show ledger.count + 1 + subscribeCount ops = ledger.count + (subscribeCount ops + 1)
      omega
    | updateCallback id f => rfl
    | unsubscribe id => rfl
    | publish event => rfl

theorem pairwise_entries_iff_keys (l : List Registered) :
    l.Pairwise Registered.before ↔
      (l.map (fun e => (e.subscriber.priority, e.stamp))).Pairwise keyBefore := by
  rw [List.pairwise_map]
  rfl

theorem pairwise_stableInsert_entry (a : Registered) (m : List Registered)
    (hm : m.Pairwise Registered.before)
    (ha : ∀ b ∈ m, b.subscriber.priority = a.subscriber.priority → a.stamp < b.stamp) :
    (stableInsert (fun lhs rhs => priorityGreater lhs.subscriber rhs.subscriber) a m).Pairwise
      Registered.before := by
  induction m with
  | nil => simp [stableInsert]
  | cons y ys ih =>
    rw [List.pairwise_cons] at hm
    unfold stableInsert
    split
    · rename_i hc
      have hgt : y.subscriber.priority > a.subscriber.priority := by
        simpa [priorityGreater] using hc
      rw [List.pairwise_cons]
      refine ⟨?_, ih hm.2 (fun b hb => ha b (List.mem_cons_of_mem _ hb))⟩
      intro z hz
      rcases (mem_stableInsert _ _ _ _).1 hz with rfl | hz
      · exact ⟨le_of_lt hgt, fun h => absurd h (ne_of_gt hgt)⟩
      · exact hm.1 z hz
    · rename_i hc
      have hle : y.subscriber.priority ≤ a.subscriber.priority := by
        simpa [priorityGreater] using hc
      rw [List.pairwise_cons]
      refine ⟨?_, List.pairwise_cons.2 hm⟩
      intro z hz
      have hzy : z.subscriber.priority ≤ y.subscriber.priority := by
        rcases List.mem_cons.1 hz with rfl | hz'
        · exact le_refl _
        · exact (hm.1 z hz').1
      exact ⟨le_trans hzy hle, fun h => ha z hz h.symm⟩

theorem pairwise_stable_sort_entry (x : Registered) (l : List Registered)
    (hl : l.Pairwise Registered.before) (hx : ∀ b ∈ l, b.stamp < x.stamp) :
    (stable_sort (fun lhs rhs => priorityGreater lhs.subscriber rhs.subscriber)
      (l ++ [x])).Pairwise Registered.before := by
  induction l with
  | nil => simp [stable_sort, stableInsert]
  | cons y ys ih =>
    rw [List.pairwise_cons] at hl
    show (stableInsert _ y (stable_sort _ (ys ++ [x]))).Pairwise Registered.before
    apply pairwise_stableInsert_entry _ _ (ih hl.2 (fun b hb => hx b (List.mem_cons_of_mem _ hb)))
    intro b hb hp
    rw [mem_stable_sort, List.mem_append, List.mem_singleton] at hb
    rcases hb with hb | rfl
    · exact (hl.1 b hb).2 hp.symm
    · exact hx y (List.mem_cons_self _ _)

/-- What holds of a ledger in every state: the id counter is the number of subscriptions
modulo `SIZE_MAX + 1`, every record has a registration number below that number and an id
that is its registration number modulo `SIZE_MAX + 1`, and the records are stored in
non-increasing priority order and, within a priority, in the order of registration. -/
theorem ledger_invariant_apply (ledger : Ledger) (op : Op)
    (h : ledger.nextId_ = ledger.count % (SIZE_MAX + 1) ∧
      (∀ e ∈ ledger.entries, e.stamp < ledger.count ∧
        e.subscriber.id = e.stamp % (SIZE_MAX + 1)) ∧
      ledger.entries.Pairwise Registered.before) :
    (op.applyLedger ledger).nextId_ = (op.applyLedger ledger).count % (SIZE_MAX + 1) ∧
      (∀ e ∈ (op.applyLedger ledger).entries, e.stamp < (op.applyLedger ledger).count ∧
        e.subscriber.id = e.stamp % (SIZE_MAX + 1)) ∧
      (op.applyLedger ledger).entries.Pairwise Registered.before := by
  obtain ⟨h1, h2, h3⟩ := h
  cases op with
  | subscribe T callback priority =>
    refine ⟨?_, ?_, ?_⟩
    · show (ledger.nextId_ + 1) % (SIZE_MAX + 1) = (ledger.count + 1) % (SIZE_MAX + 1)
      rw [h1, Nat.mod_add_mod]
    · intro e he
      have he2 : e ∈ stable_sort (fun lhs rhs => priorityGreater lhs.subscriber rhs.subscriber)
          (ledger.entries ++
            [{ subscriber :=
                 { callback := Callback.wrapper T callback, priority := priority,
                   id := ledger.nextId_ },
               stamp := ledger.count }]) := he
      rw [mem_stable_sort, List.mem_append, List.mem_singleton] at he2
      show e.stamp < ledger.count + 1 ∧ _
      rcases he2 with he2 | rfl
      · exact ⟨Nat.lt_succ_of_lt (h2 e he2).1, (h2 e he2).2⟩
      · exact ⟨Nat.lt_succ_self _, h1⟩
    · exact pairwise_stable_sort_entry _ _ h3 (fun b hb => (h2 b hb).1)
  | updateCallback id f =>
    refine ⟨h1, ?_, ?_⟩
    · intro e he
      have hmem : (e.subscriber.priority, e.stamp, e.subscriber.id) ∈
          (updateFirstEntry id f ledger.entries).map
            (fun e => (e.subscriber.priority, e.stamp, e.subscriber.id)) :=
        List.mem_map_of_mem _ he
      rw [updateFirstEntry_keys] at hmem
      obtain ⟨b, hb, hbe⟩ := List.mem_map.1 hmem
      have e1 : b.stamp = e.stamp := congrArg (fun t => t.2.1) hbe
      have e2 : b.subscriber.id = e.subscriber.id := congrArg (fun t => t.2.2) hbe
      show e.stamp < ledger.count ∧ _
      rw [← e1, ← e2]
      exact h2 b hb
    · show (updateFirstEntry id f ledger.entries).Pairwise Registered.before
      have hk := congrArg (List.map (fun t : Int × Nat × Nat => (t.1, t.2.1)))
        (updateFirstEntry_keys id f ledger.entries)
      simp only [List.map_map, Function.comp_def] at hk
      rw [pairwise_entries_iff_keys, hk, ← pairwise_entries_iff_keys]
      exact h3
  | unsubscribe id =>
    refine ⟨h1, ?_, ?_⟩
    · intro e he
      exact h2 e (List.mem_of_mem_filter he)
    · exact List.Pairwise.sublist (List.filter_sublist _) h3
  | publish event => exact ⟨h1, h2, h3⟩

theorem ledger_invariant_run (ops : List Op) :
    ∀ ledger : Ledger,
      (ledger.nextId_ = ledger.count % (SIZE_MAX + 1) ∧
        (∀ e ∈ ledger.entries, e.stamp < ledger.count ∧
          e.subscriber.id = e.stamp % (SIZE_MAX + 1)) ∧
        ledger.entries.Pairwise Registered.before) →
      ((ledgerRun ops ledger).nextId_ = (ledgerRun ops ledger).count % (SIZE_MAX + 1) ∧
        (∀ e ∈ (ledgerRun ops ledger).entries, e.stamp < (ledgerRun ops ledger).count ∧
          e.subscriber.id = e.stamp % (SIZE_MAX + 1)) ∧
        (ledgerRun ops ledger).entries.Pairwise Registered.before) := by
  induction ops with
  | nil => intro ledger h; exact h
  | cons op ops ih => intro ledger h; exact ih _ (ledger_invariant_apply ledger op h)

theorem ledger_invariant_empty :
    Ledger.empty.nextId_ = Ledger.empty.count % (SIZE_MAX + 1) ∧
      (∀ e ∈ Ledger.empty.entries, e.stamp < Ledger.empty.count ∧
        e.subscriber.id = e.stamp % (SIZE_MAX + 1)) ∧
      Ledger.empty.entries.Pairwise Registered.before := by
  refine ⟨rfl, ?_, List.Pairwise.nil⟩
  intro e he
  cases he

theorem ledgerCalls_erase (env : Env) (event : BaseEvent) (l : List Registered) :
    (ledgerCalls env event l).map Prod.fst =
      (publishLoop env event (l.map (fun e => e.subscriber))).calls := by
  induction l with
  | nil => rfl
  | cons y ys ih =>
    rw [List.map_cons]
    unfold ledgerCalls publishLoop
    split
    · rename_i f hf
      simp [hf, List.map_map, Function.comp_def]
    · rename_i hf
      simp [hf, List.map_map, Function.comp_def, ih]

theorem ledgerCalls_from_entries (env : Env) (event : BaseEvent) (l : List Registered) :
    ((ledgerCalls env event l).map (fun x => (x.1.priority, x.2, x.1.id))).Sublist
      (l.map (fun e => (e.subscriber.priority, e.stamp, e.subscriber.id))) := by
  induction l with
  | nil => simp [ledgerCalls]
  | cons y ys ih =>
    have hd : (y.subscriber.dispatch env event = [] ∨
        ∃ h, y.subscriber.dispatch env event =
          [{ id := y.subscriber.id, priority := y.subscriber.priority, handler := h }]) := by
      unfold Subscriber.dispatch
      split
      · right; exact ⟨_, rfl⟩
      · left; rfl
    unfold ledgerCalls
    split
    · rcases hd with hd | ⟨h, hd⟩
      · rw [hd]
        exact List.nil_sublist _
      · rw [hd]
        exact List.Sublist.cons₂ _ (List.nil_sublist _)
    · rcases hd with hd | ⟨h, hd⟩
      · rw [hd]
        exact List.Sublist.cons _ ih
      · rw [hd]
        exact List.Sublist.cons₂ _ ih

theorem ledgerCalls_ordered (env : Env) (event : BaseEvent) (l : List Registered)
    (h : l.Pairwise Registered.before) : (ledgerCalls env event l).Pairwise callBefore := by
  have e1 : (ledgerCalls env event l).Pairwise callBefore ↔
      ((ledgerCalls env event l).map (fun x => (x.1.priority, x.2))).Pairwise keyBefore := by
    rw [List.pairwise_map]
    rfl
  rw [e1]
  have hs := (ledgerCalls_from_entries env event l).map (fun t : Int × Nat × Nat => (t.1, t.2.1))
  simp only [List.map_map, Function.comp_def] at hs
  exact List.Pairwise.sublist hs ((pairwise_entries_iff_keys l).1 h)

theorem ledgerCalls_ids (env : Env) (event : BaseEvent) (l : List Registered)
    (h : ∀ e ∈ l, e.subscriber.id = e.stamp % (SIZE_MAX + 1)) :
    ∀ x ∈ ledgerCalls env event l, x.1.id = x.2 % (SIZE_MAX + 1) := by
  intro x hx
  have hmem : (x.1.priority, x.2, x.1.id) ∈
      (ledgerCalls env event l).map (fun x => (x.1.priority, x.2, x.1.id)) :=
    List.mem_map_of_mem _ hx
  obtain ⟨e, he, hk⟩ := List.mem_map.1 ((ledgerCalls_from_entries env event l).subset hmem)
  have e1 : e.stamp = x.2 := congrArg (fun t => t.2.1) hk
  have e2 : e.subscriber.id = x.1.id := congrArg (fun t => t.2.2) hk
  rw [← e1, ← e2]
  exact h e he

/-! ## C1: dispatch order -/

theorem calls_pairwise_of_fresh (env : Env) (event : BaseEvent) (c : Nat) (bus : EventBus)
    (h : Fresh c bus) : (bus.publish env event).2.calls.Pairwise Invocation.before := by
  rw [pairwise_calls_iff_keys]
  exact List.Pairwise.sublist (calls_keys_sublist env event bus.subscribers_)
    ((pairwise_before_iff_keys _).1 h.2.2)

theorem three_subscriptions (env : Env) (T : TypeId) (h1 h2 h3 : Handler) :
    run env [Op.subscribe T h1 1, Op.subscribe T h2 10, Op.subscribe T h3 10] EventBus.empty =
      { subscribers_ :=
          [{ callback := Callback.wrapper T h2, priority := 10, id := 1 },
           { callback := Callback.wrapper T h3, priority := 10, id := 2 },
           { callback := Callback.wrapper T h1, priority := 1, id := 0 }],
        nextId_ := 3 } := by
  rfl

theorem ledgerCalls_entry (env : Env) (event : BaseEvent) (l : List Registered)
    (x : Invocation × Nat) (hx : x ∈ ledgerCalls env event l) :
    ∃ e ∈ l, e.stamp = x.2 ∧ e.subscriber.id = x.1.id ∧ e.subscriber.priority = x.1.priority := by
  have hmem : (x.1.priority, x.2, x.1.id) ∈
      (ledgerCalls env event l).map (fun x => (x.1.priority, x.2, x.1.id)) :=
    List.mem_map_of_mem _ hx
  obtain ⟨e, he, hk⟩ := List.mem_map.1 ((ledgerCalls_from_entries env event l).subset hmem)
  exact ⟨e, he, congrArg (fun t => t.2.1) hk, congrArg (fun t => t.2.2) hk,
    congrArg (fun t => t.1) hk⟩

/-- C1, as amended: after every sequence of subscribe, updateCallback, unsubscribe and
publish calls on a new bus, the invocations of one `publish` happen in non-increasing
priority order and, among equal priorities, in the order in which their records were
subscribed: written with the registration number of each record (the number of earlier
subscribe calls, of which the id is the remainder modulo `SIZE_MAX + 1`), the numbers
increase within a priority.  This is ascending id order when the sequence contains at most
`SIZE_MAX + 1` subscribe calls.  In the scenario of `example2_priority.cpp` (subscribe `h1`
with priority 1, then `h2` and `h3` with priority 10, handlers that return, one matching
event) the call order is `h2, h3, h1`. -/
theorem C1_publish_order :
    (∀ (env env1 : Env) (ops : List Op) (event : BaseEvent),
        ((run env1 ops EventBus.empty).publish env event).2.calls.Pairwise
          (fun a b => b.priority ≤ a.priority)) ∧
    (∀ (env env1 : Env) (ops : List Op) (event : BaseEvent),
        (ledgerCalls env event (ledgerRun ops Ledger.empty).entries).map Prod.fst =
          ((run env1 ops EventBus.empty).publish env event).2.calls ∧
        (ledgerCalls env event (ledgerRun ops Ledger.empty).entries).Pairwise callBefore ∧
        (∀ x ∈ ledgerCalls env event (ledgerRun ops Ledger.empty).entries,
          x.2 < subscribeCount ops ∧ x.1.id = x.2 % (SIZE_MAX + 1))) ∧
    (∀ (env env1 : Env) (ops : List Op) (event : BaseEvent),
        subscribeCount ops ≤ SIZE_MAX + 1 →
        ((run env1 ops EventBus.empty).publish env event).2.calls.Pairwise Invocation.before) ∧
    (∀ (env env1 : Env) (T : TypeId) (h1 h2 h3 : Handler) (event : BaseEvent),
        env.derives event.dynType T = true →
        env.runs h2 event = none → env.runs h3 event = none →
        ((run env1 [Op.subscribe T h1 1, Op.subscribe T h2 10, Op.subscribe T h3 10]
            EventBus.empty).publish env event).2.calls.map (fun c => c.handler) =
          [h2, h3, h1]) := by
  refine ⟨?_, ?_, ?_, ?_⟩
  · intro env env1 ops event
    exact calls_priority_sorted env event _
      (priority_sorted_run env1 ops EventBus.empty List.Pairwise.nil)
  · intro env env1 ops event
    have hinv := ledger_invariant_run ops Ledger.empty ledger_invariant_empty
    have hcount : (ledgerRun ops Ledger.empty).count = subscribeCount ops := by
      rw [ledgerRun_count]
      exact Nat.zero_add _
    have hbus : (ledgerRun ops Ledger.empty).bus = run env1 ops EventBus.empty :=
      ledgerRun_bus env1 ops Ledger.empty
    refine ⟨?_, ledgerCalls_ordered env event _ hinv.2.2, ?_⟩
    · rw [ledgerCalls_erase, ← hbus]
      rfl
    · intro x hx
      obtain ⟨e, he, hs, hid, _⟩ := ledgerCalls_entry env event _ x hx
      have h2 := hinv.2.1 e he
      rw [hcount, hs, hid] at h2
      exact h2
  · intro env env1 ops event hc
    have h := (fresh_run env1 ops 0 EventBus.empty fresh_empty (by omega)).1
    exact calls_pairwise_of_fresh env event _ _ h
  · intro env env1 T h1 h2 h3 event hd r2 r3
    rw [three_subscriptions]
    simp [EventBus.publish, publishLoop, Subscriber.fault, Subscriber.dispatch,
      Callback.target, hd, r2, r3]
    cases env.runs h1 event <;> simp

/-- Witness of C1: the three subscriptions of `example2_priority.cpp`. -/
theorem C1_publish_order_witness :
    subscribeCount [Op.subscribe 0 1 1, Op.subscribe 0 2 10, Op.subscribe 0 3 10] ≤ SIZE_MAX + 1 ∧
    ((run quietEnv [Op.subscribe 0 1 1, Op.subscribe 0 2 10, Op.subscribe 0 3 10]
        EventBus.empty).publish quietEnv ⟨0, 0⟩).2.calls.Pairwise Invocation.before ∧
    ((run quietEnv [Op.subscribe 0 1 1, Op.subscribe 0 2 10, Op.subscribe 0 3 10]
        EventBus.empty).publish quietEnv ⟨0, 0⟩).2.calls.map (fun c => c.handler) = [2, 3, 1] :=
  ⟨by decide,
   C1_publish_order.2.2.1 quietEnv quietEnv _ ⟨0, 0⟩ (by decide),
   C1_publish_order.2.2.2 quietEnv quietEnv 0 1 2 3 ⟨0, 0⟩ rfl rfl rfl⟩

/-- Counterexample to C1 as stated: after `SIZE_MAX` rounds of subscribe and unsubscribe the
counter stands at `SIZE_MAX`; two further subscriptions of equal priority get the ids
`SIZE_MAX` and `0`, and `publish` calls them in that order, which is the order of
subscription but not ascending id order. -/
theorem C1_counterexample :
    ((run quietEnv wrapOps EventBus.empty).publish quietEnv ⟨0, 0⟩).2.calls =
        [{ id := SIZE_MAX, priority := 0, handler := 1 }, { id := 0, priority := 0, handler := 2 }] ∧
      ¬ ((run quietEnv wrapOps EventBus.empty).publish quietEnv ⟨0, 0⟩).2.calls.Pairwise
          Invocation.before := by
  rw [run_wrapOps]
  refine ⟨rfl, ?_⟩
  intro h
  have h2 : Invocation.before { id := SIZE_MAX, priority := 0, handler := 1 }
      { id := 0, priority := 0, handler := 2 } := by
    have h3 := List.pairwise_cons.1 h
    exact h3.1 _ (List.mem_cons_self _ _)
  exact absurd (h2.2 rfl) (Nat.not_lt_zero _)

/-! ## Lemmas on `publish` -/

theorem publishLoop_cons_none (env : Env) (event : BaseEvent) (y : Subscriber)
    (ys : List Subscriber) (h : y.fault env event = none) :
    publishLoop env event (y :: ys) =
      { visited := y :: (publishLoop env event ys).visited,
        calls := y.dispatch env event ++ (publishLoop env event ys).calls,
        fault := (publishLoop env event ys).fault } := by
  rw [publishLoop, h]

theorem publishLoop_cons_some (env : Env) (event : BaseEvent) (y : Subscriber)
    (ys : List Subscriber) (f : Fault) (h : y.fault env event = some f) :
    publishLoop env event (y :: ys) =
      { visited := [y], calls := y.dispatch env event, fault := some f } := by
  rw [publishLoop, h]

theorem publishLoop_append (env : Env) (event : BaseEvent) (pre l : List Subscriber)
    (h : (publishLoop env event pre).fault = none) :
    publishLoop env event (pre ++ l) =
      { visited := (publishLoop env event pre).visited ++ (publishLoop env event l).visited,
        calls := (publishLoop env event pre).calls ++ (publishLoop env event l).calls,
        fault := (publishLoop env event l).fault } := by
  induction pre with
  | nil => rfl
  | cons y ys ih =>
    rw [List.cons_append]
    cases hf : y.fault env event with
    | some f =>
      rw [publishLoop_cons_some env event y ys f hf] at h
      cases h
    | none =>
      rw [publishLoop_cons_none env event y ys hf] at h
      rw [publishLoop_cons_none env event y _ hf, publishLoop_cons_none env event y ys hf,
        ih h, List.append_assoc, List.cons_append]

theorem publishLoop_append_fault (env : Env) (event : BaseEvent) (pre l : List Subscriber)
    (f : Fault) (h : (publishLoop env event pre).fault = some f) :
    publishLoop env event (pre ++ l) = publishLoop env event pre := by
  induction pre with
  | nil => cases h
  | cons y ys ih =>
    rw [List.cons_append]
    cases hf : y.fault env event with
    | some g =>
      rw [publishLoop_cons_some env event y _ g hf, publishLoop_cons_some env event y ys g hf]
    | none =>
      rw [publishLoop_cons_none env event y ys hf] at h
      rw [publishLoop_cons_none env event y _ hf, publishLoop_cons_none env event y ys hf, ih h]

theorem calls_from_records (env : Env) (event : BaseEvent) (l : List Subscriber)
    (c : Invocation) (hc : c ∈ (publishLoop env event l).calls) :
    ∃ s ∈ l, s.id = c.id ∧ s.priority = c.priority := by
  have h1 : c.key ∈ (publishLoop env event l).calls.map Invocation.key :=
    List.mem_map_of_mem _ hc
  have h2 := (calls_keys_sublist env event l).subset h1
  obtain ⟨s, hs, hk⟩ := List.mem_map.1 h2
  refine ⟨s, hs, ?_, ?_⟩
  · exact congrArg Prod.snd hk
  · exact congrArg Prod.fst hk

theorem filter_calls_of_no_id (env : Env) (event : BaseEvent) (l : List Subscriber) (id : Nat)
    (h : ∀ s ∈ l, s.id ≠ id) :
    (publishLoop env event l).calls.filter (fun c => decide (c.id = id)) = [] := by
  rw [List.filter_eq_nil_iff]
  intro c hc
  obtain ⟨s, hs, hid, _⟩ := calls_from_records env event l c hc
  simpa [← hid] using h s hs

theorem dispatch_wrapper (env : Env) (event : BaseEvent) (r : Subscriber) (T : TypeId)
    (callback : Handler) (hr : r.callback = Callback.wrapper T callback) :
    r.dispatch env event =
      if env.derives event.dynType T then
        [{ id := r.id, priority := r.priority, handler := callback }]
      else [] := by
  unfold Subscriber.dispatch
  rw [hr]
  unfold Callback.target
  split <;> simp_all

theorem publish_split (env : Env) (event : BaseEvent) (pre post : List Subscriber)
    (r : Subscriber) (nextId : Nat) (hpre : (publishLoop env event pre).fault = none) :
    (EventBus.publish env { subscribers_ := pre ++ r :: post, nextId_ := nextId } event).2.calls =
      (publishLoop env event pre).calls ++ r.dispatch env event ++
        (if (r.fault env event).isSome then [] else (publishLoop env event post).calls) := by
  show (publishLoop env event (pre ++ r :: post)).calls = _
  rw [publishLoop_append env event pre _ hpre, List.append_assoc]
  cases hf : r.fault env event with
  | some f => rw [publishLoop_cons_some env event r post f hf]; simp
  | none => rw [publishLoop_cons_none env event r post hf]; simp

/-! ## C2: dispatch by dynamic type -/

/-- C2, as amended: `subscribe<T>(callback, priority)` creates a record whose callback is
the adapter of `callback` for `T`.  For a registry that holds such a record `r` and an
event `e`, a `publish(e)` in which no handler dispatched ahead of `r` throws makes, through
`r`, exactly one invocation of `callback` when the dynamic type of `e` is `T` or derives
from `T`, and none otherwise: the call sequence is the calls of the records ahead of `r`,
then that one call or nothing, then (unless `callback` threw) the calls of the records
behind `r`.  When no other record has the id of `r`, the invocations made under that id are
exactly `[callback]` or `[]`. -/
theorem C2_typed_dispatch :
    (∀ (bus : EventBus) (T : TypeId) (callback : Handler) (priority : Int),
        ({ callback := Callback.wrapper T callback, priority := priority, id := bus.nextId_ } :
          Subscriber) ∈ (bus.subscribe T callback priority).1.subscribers_) ∧
    (∀ (env : Env) (event : BaseEvent) (pre post : List Subscriber) (r : Subscriber)
        (nextId : Nat) (T : TypeId) (callback : Handler),
        r.callback = Callback.wrapper T callback →
        (publishLoop env event pre).fault = none →
        (EventBus.publish env { subscribers_ := pre ++ r :: post, nextId_ := nextId } event).2.calls =
          (publishLoop env event pre).calls ++
            (if env.derives event.dynType T then
              [{ id := r.id, priority := r.priority, handler := callback }] else []) ++
            (if (r.fault env event).isSome then [] else (publishLoop env event post).calls)) ∧
    (∀ (env : Env) (event : BaseEvent) (pre post : List Subscriber) (r : Subscriber)
        (nextId : Nat) (T : TypeId) (callback : Handler),
        r.callback = Callback.wrapper T callback →
        (publishLoop env event pre).fault = none →
        (∀ s ∈ pre ++ post, s.id ≠ r.id) →
        (EventBus.publish env { subscribers_ := pre ++ r :: post, nextId_ := nextId }
            event).2.calls.filter (fun c => decide (c.id = r.id)) =
          if env.derives event.dynType T then
            [{ id := r.id, priority := r.priority, handler := callback }] else []) := by
  refine ⟨?_, ?_, ?_⟩
  · intro bus T callback priority
    exact (mem_subscribe bus T callback priority _).2 (Or.inl rfl)
  · intro env event pre post r nextId T callback hr hpre
    rw [publish_split env event pre post r nextId hpre, dispatch_wrapper env event r T callback hr]
  · intro env event pre post r nextId T callback hr hpre hid
    rw [publish_split env event pre post r nextId hpre, dispatch_wrapper env event r T callback hr]
    have h1 := filter_calls_of_no_id env event pre r.id
      (fun s hs => hid s (List.mem_append_left _ hs))
    have h2 := filter_calls_of_no_id env event post r.id
      (fun s hs => hid s (List.mem_append_right _ hs))
    rw [List.filter_append, List.filter_append, h1]
    split <;> split <;> simp [h2]

/-- Witness of C2: the three subscriptions of `example3_inheritance.cpp` and a published
`PlayerJoinedEvent`; the record of the `BaseGameEvent` subscriber is the last one. -/
theorem C2_typed_dispatch_witness :
    (publishLoop gameEnv ⟨2, 0⟩
        [{ callback := Callback.wrapper 2 11, priority := 10, id := 1 },
         { callback := Callback.wrapper 3 12, priority := 8, id := 2 }]).fault = none ∧
    (EventBus.publish gameEnv
        { subscribers_ :=
            [{ callback := Callback.wrapper 2 11, priority := 10, id := 1 },
             { callback := Callback.wrapper 3 12, priority := 8, id := 2 }] ++
              { callback := Callback.wrapper 1 10, priority := 5, id := 0 } :: [],
          nextId_ := 3 } ⟨2, 0⟩).2.calls.filter (fun c => decide (c.id = 0)) =
      if gameEnv.derives 2 1 then [{ id := 0, priority := 5, handler := 10 }] else [] :=
  ⟨by decide,
   C2_typed_dispatch.2.2 gameEnv ⟨2, 0⟩
     [{ callback := Callback.wrapper 2 11, priority := 10, id := 1 },
      { callback := Callback.wrapper 3 12, priority := 8, id := 2 }] []
     { callback := Callback.wrapper 1 10, priority := 5, id := 0 } 3 1 10 rfl (by decide)
     (by decide)⟩

/-- Counterexample to C2 as stated: handler `7` (priority 10) throws, so the record of
handler `8` (priority 1), subscribed for the type of the event, is never reached and `8` is
not invoked by this `publish`. -/
theorem C2_counterexample :
    ({ callback := Callback.wrapper 0 8, priority := 1, id := 1 } : Subscriber) ∈
        (run quietEnv [Op.subscribe 0 7 10, Op.subscribe 0 8 1] EventBus.empty).subscribers_ ∧
      faultyEnv.derives (BaseEvent.mk 0 0).dynType 0 = true ∧
      ((run quietEnv [Op.subscribe 0 7 10, Op.subscribe 0 8 1] EventBus.empty).publish
          faultyEnv ⟨0, 0⟩).2.calls = [{ id := 0, priority := 10, handler := 7 }] ∧
      ((run quietEnv [Op.subscribe 0 7 10, Op.subscribe 0 8 1] EventBus.empty).publish
          faultyEnv ⟨0, 0⟩).2.fault = some 1 := by
  decide

/-! ## C3: unsubscribe -/

theorem no_id_apply (env : Env) (id : Nat) (bus : EventBus) (op : Op)
    (h : ∀ s ∈ bus.subscribers_, s.id ≠ id)
    (hop : ∀ T callback priority, op = Op.subscribe T callback priority → bus.nextId_ ≠ id) :
    ∀ s ∈ (op.apply env bus).subscribers_, s.id ≠ id := by
  cases op with
  | subscribe T callback priority =>
    intro s hs
    rcases (mem_subscribe bus T callback priority s).1 hs with rfl | hs'
    · exact hop T callback priority rfl
    · exact h s hs'
  | updateCallback i f =>
    intro s hs
    have hmem : s.id ∈ (updateFirst i f bus.subscribers_).2.map (fun s => s.id) :=
      List.mem_map_of_mem _ hs
    rw [updateFirst_ids] at hmem
    obtain ⟨b, hb, hbe⟩ := List.mem_map.1 hmem
    rw [← hbe]
    exact h b hb
  | unsubscribe i =>
    intro s hs
    exact h s (List.mem_of_mem_filter hs)
  | publish event => exact h

theorem no_id_run (env : Env) (id : Nat) (ops : List Op) :
    ∀ bus : EventBus, (∀ s ∈ bus.subscribers_, s.id ≠ id) → id ∉ issuedIds env ops bus →
      ∀ s ∈ (run env ops bus).subscribers_, s.id ≠ id := by
  induction ops with
  | nil => intro bus h _; exact h
  | cons op ops ih =>
    intro bus h hi
    cases op with
    | subscribe T callback priority =>
      have hi2 : id ∉ (bus.subscribe T callback priority).2 ::
          issuedIds env ops (bus.subscribe T callback priority).1 := hi
      rw [List.mem_cons, not_or] at hi2
      refine ih _ (no_id_apply env id bus _ h ?_) hi2.2
      intro _ _ _ _
      exact fun e => hi2.1 e.symm
    | updateCallback i f =>
      exact ih _ (no_id_apply env id bus _ h (by intro _ _ _ hh; cases hh)) hi
    | unsubscribe i =>
      exact ih _ (no_id_apply env id bus _ h (by intro _ _ _ hh; cases hh)) hi
    | publish event =>
      exact ih _ (no_id_apply env id bus _ h (by intro _ _ _ hh; cases hh)) hi

theorem no_id_unsubscribe (bus : EventBus) (id : Nat) :
    ∀ s ∈ (bus.unsubscribe id).subscribers_, s.id ≠ id := by
  intro s hs
  have := (List.mem_filter.1 hs).2
  simpa using this

theorem no_call_of_no_id (env : Env) (event : BaseEvent) (bus : EventBus) (id : Nat)
    (h : ∀ s ∈ bus.subscribers_, s.id ≠ id) :
    ∀ c ∈ (bus.publish env event).2.calls, c.id ≠ id := by
  intro c hc
  obtain ⟨s, hs, hid, _⟩ := calls_from_records env event bus.subscribers_ c hc
  rw [← hid]
  exact h s hs

/-- C3: for every registry state and every id, after `unsubscribe(id)` the registry holds no
record with that id and a `publish` of any event makes no invocation under that id; this
stays so after any further calls on the bus, as long as none of them is a `subscribe` that
returns the same id again. -/
theorem C3_unsubscribe_silences :
    (∀ (env : Env) (bus : EventBus) (id : Nat) (event : BaseEvent),
        (∀ s ∈ (bus.unsubscribe id).subscribers_, s.id ≠ id) ∧
        (∀ c ∈ ((bus.unsubscribe id).publish env event).2.calls, c.id ≠ id)) ∧
    (∀ (env env1 : Env) (bus : EventBus) (id : Nat) (ops : List Op) (event : BaseEvent),
        id ∉ issuedIds env1 ops (bus.unsubscribe id) →
        (∀ s ∈ (run env1 ops (bus.unsubscribe id)).subscribers_, s.id ≠ id) ∧
        (∀ c ∈ ((run env1 ops (bus.unsubscribe id)).publish env event).2.calls, c.id ≠ id)) := by
  constructor
  · intro env bus id event
    exact ⟨no_id_unsubscribe bus id, no_call_of_no_id env event _ id (no_id_unsubscribe bus id)⟩
  · intro env env1 bus id ops event hi
    have h := no_id_run env1 id ops _ (no_id_unsubscribe bus id) hi
    exact ⟨h, no_call_of_no_id env event _ id h⟩

/-- Witness of C3: on the bus of `example2_priority.cpp`, unsubscribe id `1`, then subscribe
once more (id `3`) and publish. -/
theorem C3_unsubscribe_silences_witness :
    (1 ∉ issuedIds quietEnv [Op.subscribe 0 4 10]
        ((run quietEnv [Op.subscribe 0 1 1, Op.subscribe 0 2 10, Op.subscribe 0 3 10]
          EventBus.empty).unsubscribe 1)) ∧
    (∀ s ∈ (run quietEnv [Op.subscribe 0 4 10]
        ((run quietEnv [Op.subscribe 0 1 1, Op.subscribe 0 2 10, Op.subscribe 0 3 10]
          EventBus.empty).unsubscribe 1)).subscribers_, s.id ≠ 1) ∧
    (∀ c ∈ ((run quietEnv [Op.subscribe 0 4 10]
        ((run quietEnv [Op.subscribe 0 1 1, Op.subscribe 0 2 10, Op.subscribe 0 3 10]
          EventBus.empty).unsubscribe 1)).publish quietEnv ⟨0, 0⟩).2.calls, c.id ≠ 1) :=
  ⟨by decide,
   C3_unsubscribe_silences.2 quietEnv quietEnv
     (run quietEnv [Op.subscribe 0 1 1, Op.subscribe 0 2 10, Op.subscribe 0 3 10] EventBus.empty)
     1 [Op.subscribe 0 4 10] ⟨0, 0⟩ (by decide)⟩

/-! ## C4 and C5: updateCallback -/

theorem updateFirst_false_iff (id : Nat) (f : Callback) (l : List Subscriber) :
    (updateFirst id f l).1 = false ↔ ∀ s ∈ l, s.id ≠ id := by
  induction l with
  | nil => simp [updateFirst]
  | cons y ys ih =>
    unfold updateFirst
    split
    · rename_i h
      simp [h]
    · rename_i h
      simp [ih, h]

theorem updateFirst_of_absent (id : Nat) (f : Callback) (l : List Subscriber)
    (h : ∀ s ∈ l, s.id ≠ id) : (updateFirst id f l).2 = l := by
  induction l with
  | nil => rfl
  | cons y ys ih =>
    unfold updateFirst
    have hy : y.id ≠ id := h y (List.mem_cons_self _ _)
    rw [if_neg hy, ih (fun s hs => h s (List.mem_cons_of_mem _ hs))]

theorem updateFirst_at (id : Nat) (f : Callback) (pre post : List Subscriber) (r : Subscriber)
    (hr : r.id = id) (hpre : ∀ s ∈ pre, s.id ≠ id) :
    updateFirst id f (pre ++ r :: post) = (true, pre ++ { r with callback := f } :: post) := by
  induction pre with
  | nil =>
    show updateFirst id f (r :: post) = _
    unfold updateFirst
    rw [if_pos hr]
    rfl
  | cons y ys ih =>
    have hy : y.id ≠ id := hpre y (List.mem_cons_self _ _)
    have ih2 := ih (fun s hs => hpre s (List.mem_cons_of_mem _ hs))
    show updateFirst id f (y :: (ys ++ r :: post)) = _
    unfold updateFirst
    rw [if_neg hy, ih2]
    rfl

theorem first_with_id (id : Nat) (l : List Subscriber) (h : ∃ s ∈ l, s.id = id) :
    ∃ pre r post, l = pre ++ r :: post ∧ r.id = id ∧ ∀ s ∈ pre, s.id ≠ id := by
  induction l with
  | nil =>
    obtain ⟨s, hs, _⟩ := h
    cases hs
  | cons y ys ih =>
    by_cases hy : y.id = id
    · exact ⟨[], y, ys, rfl, hy, fun s hs => by cases hs⟩
    · obtain ⟨s, hs, hid⟩ := h
      have hs2 : s ∈ ys := by
        rcases List.mem_cons.1 hs with rfl | hs'
        · exact absurd hid hy
        · exact hs'
      obtain ⟨pre, r, post, e, hr, hp⟩ := ih ⟨s, hs2, hid⟩
      refine ⟨y :: pre, r, post, by rw [e]; rfl, hr, ?_⟩
      intro t ht
      rcases List.mem_cons.1 ht with rfl | ht'
      · exact hy
      · exact hp t ht'

/-- C4, as amended: when the registry holds a record with the id, `updateCallback(id, f)`
returns true and puts `f` into the first such record `r`, leaving everything else as it
was.  In every later `publish` in which no handler dispatched ahead of `r` throws, the
invocation made through `r` is the one `f` makes for the event (the handler of `f` when the
event matches `f`, nothing otherwise): the calls are those of the records ahead of `r`, then
that of `f`, then (unless `f` threw) those of the records behind `r`; the callback that was
stored before plays no part.  When `r` is the only record with the id, the invocations
under that id are exactly those of `f`. -/
theorem C4_updateCallback_takes_effect (bus : EventBus) (id : Nat) (f : Callback)
    (hex : ∃ s ∈ bus.subscribers_, s.id = id) :
    (bus.updateCallback id f).1 = true ∧
    ∃ pre r post, bus.subscribers_ = pre ++ r :: post ∧ r.id = id ∧ (∀ s ∈ pre, s.id ≠ id) ∧
      (bus.updateCallback id f).2 =
        { subscribers_ := pre ++ { r with callback := f } :: post, nextId_ := bus.nextId_ } ∧
      ∀ (env : Env) (event : BaseEvent), (publishLoop env event pre).fault = none →
        (((bus.updateCallback id f).2.publish env event).2.calls =
          (publishLoop env event pre).calls ++
            (match f.target env event with
              | some h => [{ id := id, priority := r.priority, handler := h }]
              | none => []) ++
            (if (Subscriber.fault env event { r with callback := f }).isSome then []
              else (publishLoop env event post).calls)) ∧
        ((∀ s ∈ pre ++ post, s.id ≠ id) →
          ((bus.updateCallback id f).2.publish env event).2.calls.filter
              (fun c => decide (c.id = id)) =
            (match f.target env event with
              | some h => [{ id := id, priority := r.priority, handler := h }]
              | none => [])) := by
  obtain ⟨pre, r, post, e, hr, hp⟩ := first_with_id id bus.subscribers_ hex
  have hu := updateFirst_at id f pre post r hr hp
  have hstate : (bus.updateCallback id f).2 =
      { subscribers_ := pre ++ { r with callback := f } :: post, nextId_ := bus.nextId_ } := by
    unfold EventBus.updateCallback
    rw [e, hu]
  have hd : ∀ (env : Env) (event : BaseEvent),
      Subscriber.dispatch env event { r with callback := f } =
        (match f.target env event with
          | some h => [{ id := id, priority := r.priority, handler := h }]
          | none => []) := by
    intro env event
    rw [← hr]
    rfl
  refine ⟨?_, pre, r, post, e, hr, hp, hstate, ?_⟩
  · unfold EventBus.updateCallback
    rw [e, hu]
  · intro env event hpre
    rw [hstate, publish_split env event pre post _ bus.nextId_ hpre, hd]
    refine ⟨rfl, ?_⟩
    intro hid
    have h1 := filter_calls_of_no_id env event pre id
      (fun s hs => hid s (List.mem_append_left _ hs))
    have h2 := filter_calls_of_no_id env event post id
      (fun s hs => hid s (List.mem_append_right _ hs))
    have h3 : (if (Subscriber.fault env event { r with callback := f }).isSome then []
        else (publishLoop env event post).calls).filter (fun c => decide (c.id = id)) = [] := by
      split
      · rfl
      · exact h2
    rw [List.filter_append, List.filter_append, h1, h3]
    cases f.target env event <;> simp

/-- Witness of C4: `example4_update_callback.cpp`, one subscription for class `0` with
priority 5, whose callback `1` is replaced by the adapter of `2`. -/
theorem C4_updateCallback_takes_effect_witness :
    (∃ s ∈ (run quietEnv [Op.subscribe 0 1 5] EventBus.empty).subscribers_, s.id = 0) ∧
    ((run quietEnv [Op.subscribe 0 1 5] EventBus.empty).updateCallback 0
        (Callback.wrapper 0 2)).1 = true :=
  ⟨⟨_, List.mem_cons_self _ _, rfl⟩,
   (C4_updateCallback_takes_effect (run quietEnv [Op.subscribe 0 1 5] EventBus.empty) 0
     (Callback.wrapper 0 2) ⟨_, List.mem_cons_self _ _, rfl⟩).1⟩

/-- Counterexample to C4 as stated: the registry holds a record with id `1`, the update to
the adapter of handler `9` succeeds, and the next `publish` of a matching event does not
invoke `9`, because handler `7`, dispatched first, throws. -/
theorem C4_counterexample :
    (∃ s ∈ (run quietEnv [Op.subscribe 0 7 10, Op.subscribe 0 8 1] EventBus.empty).subscribers_,
        s.id = 1) ∧
      ((run quietEnv [Op.subscribe 0 7 10, Op.subscribe 0 8 1] EventBus.empty).updateCallback 1
          (Callback.wrapper 0 9)).1 = true ∧
      (Callback.wrapper 0 9).target faultyEnv ⟨0, 0⟩ = some 9 ∧
      (((run quietEnv [Op.subscribe 0 7 10, Op.subscribe 0 8 1] EventBus.empty).updateCallback 1
          (Callback.wrapper 0 9)).2.publish faultyEnv ⟨0, 0⟩).2.calls =
        [{ id := 0, priority := 10, handler := 7 }] ∧
      (((run quietEnv [Op.subscribe 0 7 10, Op.subscribe 0 8 1] EventBus.empty).updateCallback 1
          (Callback.wrapper 0 9)).2.publish faultyEnv ⟨0, 0⟩).2.fault = some 1 := by
  decide

/-- C5: `updateCallback(id, f)` returns false exactly when the registry holds no record with
that id, and then the registry (records, their order, their callbacks, the counter) is what
it was before the call. -/
theorem C5_updateCallback_absent (bus : EventBus) (id : Nat) (f : Callback) :
    ((bus.updateCallback id f).1 = false ↔ ∀ s ∈ bus.subscribers_, s.id ≠ id) ∧
    ((bus.updateCallback id f).1 = false → (bus.updateCallback id f).2 = bus) := by
  constructor
  · exact updateFirst_false_iff id f bus.subscribers_
  · intro h
    have h2 := (updateFirst_false_iff id f bus.subscribers_).1 h
    unfold EventBus.updateCallback
    rw [updateFirst_of_absent id f bus.subscribers_ h2]

/-- Witness of C5: the bus of `example2_priority.cpp` has no record with id `5`. -/
theorem C5_updateCallback_absent_witness :
    ((run quietEnv [Op.subscribe 0 1 1, Op.subscribe 0 2 10, Op.subscribe 0 3 10]
        EventBus.empty).updateCallback 5 (Callback.direct 9)).1 = false ∧
    ((run quietEnv [Op.subscribe 0 1 1, Op.subscribe 0 2 10, Op.subscribe 0 3 10]
        EventBus.empty).updateCallback 5 (Callback.direct 9)).2 =
      run quietEnv [Op.subscribe 0 1 1, Op.subscribe 0 2 10, Op.subscribe 0 3 10]
        EventBus.empty :=
  ⟨by decide,
   (C5_updateCallback_absent _ 5 (Callback.direct 9)).2 (by decide)⟩

/-! ## Lemmas on the handle -/

theorem Heap.store_same (heap : Heap) (p : BusPtr) (bus : EventBus) :
    (heap.store p bus) p = bus := by
  simp [Heap.store]

theorem Heap.store_other (heap : Heap) (p q : BusPtr) (bus : EventBus) (h : q ≠ p) :
    (heap.store p bus) q = heap q := by
  simp [Heap.store, h]

theorem release_bound (h : SubscriptionHandle) (heap : Heap) (bus : BusPtr)
    (hb : h.bus_ = some bus) (hr : h.released_ = false) :
    h.release heap =
      (true, { h with released_ := true, bus_ := none },
        heap.store bus ((heap bus).unsubscribe h.id_)) := by
  unfold SubscriptionHandle.release
  rw [hb, hr]

theorem release_released (h : SubscriptionHandle) (heap : Heap) (hr : h.released_ = true) :
    h.release heap = (false, h, heap) := by
  unfold SubscriptionHandle.release
  rw [hr]

theorem release_unbound (h : SubscriptionHandle) (heap : Heap) (hb : h.bus_ = none) :
    h.release heap = (false, h, heap) := by
  unfold SubscriptionHandle.release
  rw [hb]
  cases h.released_ <;> rfl

theorem release_other_bus (h : SubscriptionHandle) (heap : Heap) (q : BusPtr)
    (hq : h.bus_ ≠ some q) : (h.release heap).2.2 q = heap q := by
  unfold SubscriptionHandle.release
  split
  · rename_i bus _ hb
    have : q ≠ bus := fun e => hq (by rw [hb, e])
    exact Heap.store_other _ _ _ _ this
  · rfl

theorem release_keeps_other_ids (h : SubscriptionHandle) (heap : Heap) (q : BusPtr)
    (s : Subscriber) (hs : s ∈ (heap q).subscribers_) (hid : s.id ≠ h.id_) :
    s ∈ ((h.release heap).2.2 q).subscribers_ := by
  unfold SubscriptionHandle.release
  split
  · rename_i bus _ hb
    by_cases e : q = bus
    · subst e
      show s ∈ ((heap.store q ((heap q).unsubscribe h.id_)) q).subscribers_
      rw [Heap.store_same]
      exact List.mem_filter.2 ⟨hs, by simpa using hid⟩
    · show s ∈ ((heap.store bus ((heap bus).unsubscribe h.id_)) q).subscribers_
      rw [Heap.store_other _ _ _ _ e]
      exact hs
  · exact hs

/-! ## C6, C7, C8: the handle -/

theorem calls_from_dispatch (env : Env) (event : BaseEvent) (l : List Subscriber)
    (c : Invocation) (hc : c ∈ (publishLoop env event l).calls) :
    ∃ r ∈ l, c ∈ r.dispatch env event := by
  induction l with
  | nil => cases hc
  | cons y ys ih =>
    cases hf : y.fault env event with
    | some f =>
      rw [publishLoop_cons_some env event y ys f hf] at hc
      exact ⟨y, List.mem_cons_self _ _, hc⟩
    | none =>
      rw [publishLoop_cons_none env event y ys hf] at hc
      rcases List.mem_append.1 hc with h | h
      · exact ⟨y, List.mem_cons_self _ _, h⟩
      · obtain ⟨r, hr, hrc⟩ := ih h
        exact ⟨r, List.mem_cons_of_mem _ hr, hrc⟩

theorem subscribe_heap_bus (heap : Heap) (p : BusPtr) (T : TypeId) (callback : Handler)
    (priority : Int) :
    (subscribe heap p T callback priority).1 p = ((heap p).subscribe T callback priority).1 := by
  show (heap.store p ((heap p).subscribe T callback priority).1) p = _
  rw [Heap.store_same]

theorem subscribe_release_bus (heap : Heap) (p : BusPtr) (T : TypeId) (callback : Handler)
    (priority : Int) :
    ((subscribe heap p T callback priority).2.release (subscribe heap p T callback priority).1).1 =
        true ∧
      ((subscribe heap p T callback priority).2.release
          (subscribe heap p T callback priority).1).2.2 p =
        ((heap p).subscribe T callback priority).1.unsubscribe (heap p).nextId_ := by
  have hrel : (subscribe heap p T callback priority).2.release
      (subscribe heap p T callback priority).1 =
        (true, { bus_ := none, id_ := (heap p).nextId_, released_ := true },
          (subscribe heap p T callback priority).1.store p
            (((subscribe heap p T callback priority).1 p).unsubscribe (heap p).nextId_)) :=
    release_bound _ _ p rfl rfl
  rw [hrel]
  refine ⟨rfl, ?_⟩
  show ((subscribe heap p T callback priority).1.store p _) p = _
  rw [Heap.store_same, subscribe_heap_bus]

/-- C6, as amended: `subscribe` returns a handle bound to the bus and carrying the id of
the record it has just stored for the callback.  `release()` on it returns true, and after
`release()`, or after the destructor, the registry holds exactly the records it held before
the subscription, less any with that id: the record of the callback is gone, no `publish`
makes an invocation under the id, and every invocation is made by a record that was there
before the subscription.  In the sequence subscribe, publish a matching event, release,
publish again, the record of the token (with the records `pre` ahead of it and `post`
behind it) invokes the callback once in the first `publish`, provided that no handler
dispatched ahead of it throws, and is not in the registry for the second: when no other
record has the id, the invocations under the id in both together are exactly that one.  On
a new bus, as in `example5_raii.cpp`, there is nothing ahead: one invocation in total. -/
theorem C6_release_silences :
    (∀ (heap : Heap) (p : BusPtr) (T : TypeId) (callback : Handler) (priority : Int),
        (subscribe heap p T callback priority).2 =
          { bus_ := some p, id_ := (heap p).nextId_, released_ := false } ∧
        ({ callback := Callback.wrapper T callback, priority := priority,
           id := (subscribe heap p T callback priority).2.id_ } : Subscriber) ∈
          ((subscribe heap p T callback priority).1 p).subscribers_ ∧
        ((subscribe heap p T callback priority).2.release
            (subscribe heap p T callback priority).1).1 = true ∧
        (subscribe heap p T callback priority).2.dtor (subscribe heap p T callback priority).1 =
          ((subscribe heap p T callback priority).2.release
            (subscribe heap p T callback priority).1).2.2 ∧
        (∀ r, r ∈ (((subscribe heap p T callback priority).2.release
              (subscribe heap p T callback priority).1).2.2 p).subscribers_ ↔
            r ∈ (heap p).subscribers_ ∧ r.id ≠ (subscribe heap p T callback priority).2.id_) ∧
        (∀ (env : Env) (event : BaseEvent),
          ∀ c ∈ ((((subscribe heap p T callback priority).2.release
              (subscribe heap p T callback priority).1).2.2 p).publish env event).2.calls,
            c.id ≠ (subscribe heap p T callback priority).2.id_ ∧
              ∃ r ∈ (heap p).subscribers_, c ∈ r.dispatch env event) ∧
        (∀ pre post : List Subscriber,
          ((subscribe heap p T callback priority).1 p).subscribers_ =
            pre ++ { callback := Callback.wrapper T callback, priority := priority,
                     id := (heap p).nextId_ } :: post →
          (((subscribe heap p T callback priority).2.release
              (subscribe heap p T callback priority).1).2.2 p).subscribers_ =
            (pre ++ post).filter (fun s => !(decide (s.id = (heap p).nextId_))) ∧
          ∀ (env : Env) (e1 e2 : BaseEvent), env.derives e1.dynType T = true →
            (publishLoop env e1 pre).fault = none →
            (((subscribe heap p T callback priority).1 p).publish env e1).2.calls =
                (publishLoop env e1 pre).calls ++
                  [{ id := (heap p).nextId_, priority := priority, handler := callback }] ++
                  (if (Subscriber.fault env e1
                      { callback := Callback.wrapper T callback, priority := priority,
                        id := (heap p).nextId_ }).isSome then []
                    else (publishLoop env e1 post).calls) ∧
            ((∀ s ∈ pre ++ post, s.id ≠ (heap p).nextId_) →
              ((((subscribe heap p T callback priority).1 p).publish env e1).2.calls ++
                ((((subscribe heap p T callback priority).2.release
                  (subscribe heap p T callback priority).1).2.2 p).publish env e2).2.calls).filter
                  (fun c => decide (c.id = (heap p).nextId_)) =
                [{ id := (heap p).nextId_, priority := priority, handler := callback }]))) ∧
    (∀ (env : Env) (heap : Heap) (p : BusPtr) (T : TypeId) (callback : Handler)
        (priority : Int) (e1 e2 : BaseEvent),
        heap p = EventBus.empty → env.derives e1.dynType T = true →
        (((subscribe heap p T callback priority).1 p).publish env e1).2.calls =
            [{ id := 0, priority := priority, handler := callback }] ∧
        ((((subscribe heap p T callback priority).2.release
              (subscribe heap p T callback priority).1).2.2 p).publish env e2).2.calls = [] ∧
        ((((subscribe heap p T callback priority).1 p).publish env e1).2.calls ++
          ((((subscribe heap p T callback priority).2.release
              (subscribe heap p T callback priority).1).2.2 p).publish env e2).2.calls).length =
            1) := by
  constructor
  · intro heap p T callback priority
    have hb1 := subscribe_heap_bus heap p T callback priority
    have hrel := subscribe_release_bus heap p T callback priority
    have hnew : (⟨Callback.wrapper T callback, priority, (heap p).nextId_⟩ : Subscriber) ∈
        ((heap p).subscribe T callback priority).1.subscribers_ :=
      (mem_subscribe (heap p) T callback priority _).2 (Or.inl rfl)
    have hmem : ∀ r, r ∈ (((heap p).subscribe T callback priority).1.unsubscribe
        (heap p).nextId_).subscribers_ ↔ r ∈ (heap p).subscribers_ ∧ r.id ≠ (heap p).nextId_ := by
      intro r
      show r ∈ List.filter _ _ ↔ _
      rw [List.mem_filter, mem_subscribe]
      constructor
      · rintro ⟨h1 | h1, h2⟩
        · rw [h1] at h2
          simp at h2
        · exact ⟨h1, by simpa using h2⟩
      · rintro ⟨h1, h2⟩
        exact ⟨Or.inr h1, by simpa using h2⟩
    refine ⟨rfl, ?_, hrel.1, rfl, ?_, ?_, ?_⟩
    · rw [hb1]
      exact hnew
    · intro r
      rw [hrel.2]
      exact hmem r
    · intro env event c hc
      rw [hrel.2] at hc
      obtain ⟨r, hr, hrc⟩ := calls_from_dispatch env event _ c hc
      have hr2 := (hmem r).1 hr
      refine ⟨?_, r, hr2.1, hrc⟩
      exact no_call_of_no_id env event _ _ (no_id_unsubscribe _ _) c hc
    · intro pre post hsplit0
      have hsplit : ((heap p).subscribe T callback priority).1.subscribers_ =
          pre ++ ⟨Callback.wrapper T callback, priority, (heap p).nextId_⟩ :: post := by
        rw [← hb1]
        exact hsplit0
      have hafter : (((heap p).subscribe T callback priority).1.unsubscribe
          (heap p).nextId_).subscribers_ =
          (pre ++ post).filter (fun s => !(decide (s.id = (heap p).nextId_))) := by
        show List.filter _ ((heap p).subscribe T callback priority).1.subscribers_ = _
        rw [hsplit, List.filter_append, List.filter_append, List.filter_cons]
        simp
      refine ⟨?_, ?_⟩
      · rw [hrel.2]
        exact hafter
      · intro env e1 e2 hd hpre
        have hc1 : (((subscribe heap p T callback priority).1 p).publish env e1).2.calls =
            (publishLoop env e1 pre).calls ++
              [{ id := (heap p).nextId_, priority := priority, handler := callback }] ++
              (if (Subscriber.fault env e1
                  ⟨Callback.wrapper T callback, priority, (heap p).nextId_⟩).isSome then []
                else (publishLoop env e1 post).calls) := by
          rw [hb1]
          show (publishLoop env e1 ((heap p).subscribe T callback priority).1.subscribers_).calls
            = _
          rw [hsplit]
          have hps := publish_split env e1 pre post
            ⟨Callback.wrapper T callback, priority, (heap p).nextId_⟩ 0 hpre
          rw [dispatch_wrapper env e1 _ T callback rfl, if_pos hd] at hps
          exact hps
        refine ⟨hc1, ?_⟩
        intro hid
        have h1 := filter_calls_of_no_id env e1 pre (heap p).nextId_
          (fun s hs => hid s (List.mem_append_left _ hs))
        have h2 := filter_calls_of_no_id env e1 post (heap p).nextId_
          (fun s hs => hid s (List.mem_append_right _ hs))
        have h3 : (if (Subscriber.fault env e1
            ⟨Callback.wrapper T callback, priority, (heap p).nextId_⟩).isSome then []
            else (publishLoop env e1 post).calls).filter
              (fun c => decide (c.id = (heap p).nextId_)) = [] := by
          split
          · rfl
          · exact h2
        have h4 : ((((subscribe heap p T callback priority).2.release
            (subscribe heap p T callback priority).1).2.2 p).publish env e2).2.calls.filter
              (fun c => decide (c.id = (heap p).nextId_)) = [] := by
          rw [hrel.2]
          exact filter_calls_of_no_id env e2 _ _ (no_id_unsubscribe _ _)
        rw [List.filter_append, h4, hc1, List.filter_append, List.filter_append, h1, h3]
        simp
  · intro env heap p T callback priority e1 e2 hp hd
    have hs : (subscribe heap p T callback priority).1 p =
        { subscribers_ := [{ callback := Callback.wrapper T callback, priority := priority, id := 0 }],
          nextId_ := 1 } := by
      rw [subscribe_heap_bus, hp]
      rfl
    have h1 : (((subscribe heap p T callback priority).1 p).publish env e1).2.calls =
        [{ id := 0, priority := priority, handler := callback }] := by
      rw [hs]
      simp only [EventBus.publish]
      cases hf : Subscriber.fault env e1
          { callback := Callback.wrapper T callback, priority := priority, id := 0 } with
      | some f =>
        rw [publishLoop_cons_some _ _ _ _ f hf]
        simp [Subscriber.dispatch, Callback.target, hd]
      | none =>
        rw [publishLoop_cons_none _ _ _ _ hf]
        simp [Subscriber.dispatch, Callback.target, hd, publishLoop]
    have h2 : ((((subscribe heap p T callback priority).2.release
        (subscribe heap p T callback priority).1).2.2 p).publish env e2).2.calls = [] := by
      rw [(subscribe_release_bus heap p T callback priority).2, hp]
      rfl
    refine ⟨h1, h2, ?_⟩
    rw [h1, h2]
    rfl

/-- Witness of C6: the bus already holds a subscriber of priority 10 whose handler returns;
a subscription of priority 5 is made, a matching event is published, the handle is released
and the event is published again. -/
theorem C6_release_silences_witness :
    ((subscribe (fun _ => run quietEnv [Op.subscribe 0 2 10] EventBus.empty) 0 0 1 5).1
        0).subscribers_ =
      [{ callback := Callback.wrapper 0 2, priority := 10, id := 0 }] ++
        { callback := Callback.wrapper 0 1, priority := 5, id := 1 } :: [] ∧
    quietEnv.derives (BaseEvent.mk 0 0).dynType 0 = true ∧
    (publishLoop quietEnv ⟨0, 0⟩
      [{ callback := Callback.wrapper 0 2, priority := 10, id := 0 }]).fault = none ∧
    ((((subscribe (fun _ => run quietEnv [Op.subscribe 0 2 10] EventBus.empty) 0 0 1 5).1
          0).publish quietEnv ⟨0, 0⟩).2.calls ++
        ((((subscribe (fun _ => run quietEnv [Op.subscribe 0 2 10] EventBus.empty)
              0 0 1 5).2.release
            (subscribe (fun _ => run quietEnv [Op.subscribe 0 2 10] EventBus.empty)
              0 0 1 5).1).2.2 0).publish quietEnv ⟨0, 0⟩).2.calls).filter
        (fun c => decide (c.id = 1)) =
      [{ id := 1, priority := 5, handler := 1 }] :=
  ⟨by decide, rfl, by decide,
   (((C6_release_silences.1 (fun _ => run quietEnv [Op.subscribe 0 2 10] EventBus.empty)
      0 0 1 5).2.2.2.2.2.2
        [{ callback := Callback.wrapper 0 2, priority := 10, id := 0 }] [] (by decide)).2
          quietEnv ⟨0, 0⟩ ⟨0, 0⟩ rfl (by decide)).2 (by decide)⟩

/-- Counterexample to C6 as stated: the bus already holds a subscriber of priority 10 whose
handler `7` throws.  After subscribe (handler `8`, priority 1), publish of a matching event,
release and publish again, `8` has not been invoked at all: both calls of `publish` end in
the exception of `7`. -/
theorem C6_counterexample :
    faultyEnv.derives (BaseEvent.mk 0 0).dynType 0 = true ∧
      (((subscribe (fun _ => run quietEnv [Op.subscribe 0 7 10] EventBus.empty) 0 0 8 1).1
          0).publish faultyEnv ⟨0, 0⟩).2.calls = [{ id := 0, priority := 10, handler := 7 }] ∧
      ((((subscribe (fun _ => run quietEnv [Op.subscribe 0 7 10] EventBus.empty) 0 0 8 1).2.release
          (subscribe (fun _ => run quietEnv [Op.subscribe 0 7 10] EventBus.empty) 0 0 8 1).1).2.2
          0).publish faultyEnv ⟨0, 0⟩).2.calls = [{ id := 0, priority := 10, handler := 7 }] := by
  decide

/-- C7: on a bound handle (not released, with a bus) the first `release()` returns true,
the second returns false, and the second changes neither the handle nor any bus. -/
theorem C7_release_twice (h : SubscriptionHandle) (heap : Heap) (bus : BusPtr)
    (hb : h.bus_ = some bus) (hr : h.released_ = false) :
    (h.release heap).1 = true ∧
    ((h.release heap).2.1.release (h.release heap).2.2).1 = false ∧
    ((h.release heap).2.1.release (h.release heap).2.2).2.1 = (h.release heap).2.1 ∧
    ((h.release heap).2.1.release (h.release heap).2.2).2.2 = (h.release heap).2.2 := by
  rw [release_bound h heap bus hb hr]
  refine ⟨rfl, ?_, ?_, ?_⟩ <;> rw [release_released _ _ rfl]

/-- Witness of C7: the handle of the first subscription of `example2_priority.cpp`. -/
theorem C7_release_twice_witness :
    (SubscriptionHandle.ctor 0 0).bus_ = some 0 ∧
    (SubscriptionHandle.ctor 0 0).released_ = false ∧
    ((SubscriptionHandle.ctor 0 0).release
        (fun _ => run quietEnv [Op.subscribe 0 1 1, Op.subscribe 0 2 10, Op.subscribe 0 3 10]
          EventBus.empty)).1 = true :=
  ⟨rfl, rfl,
   (C7_release_twice (SubscriptionHandle.ctor 0 0)
     (fun _ => run quietEnv [Op.subscribe 0 1 1, Op.subscribe 0 2 10, Op.subscribe 0 3 10]
       EventBus.empty) 0 rfl rfl).1⟩

/-- C8: moving a bound handle `other`, by move construction or by move assignment to a
different handle object, transfers ownership.  The moved-from handle is released and unbound;
its `release()` returns false and its `release()` and destructor leave every bus as it is.
`release()` of the moved-to handle returns true, and it and the destructor erase the
records with the id from the bus, after which the bus holds no record with the id.  The
move constructor touches no bus; the move assignment changes the buses only by the
`release()` of the handle assigned to, which keeps every record with the moved id unless
that handle was itself bound to this id. -/
theorem C8_move_transfers_ownership (other : SubscriptionHandle) (heap : Heap) (bus : BusPtr)
    (hb : other.bus_ = some bus) (hr : other.released_ = false) :
    (other.moveCtor.2.released_ = true ∧ other.moveCtor.2.bus_ = none ∧
      other.moveCtor.2.release heap = (false, other.moveCtor.2, heap) ∧
      other.moveCtor.2.dtor heap = heap ∧
      (other.moveCtor.1.release heap).1 = true ∧
      (other.moveCtor.1.release heap).2.2 = heap.store bus ((heap bus).unsubscribe other.id_) ∧
      other.moveCtor.1.dtor heap = heap.store bus ((heap bus).unsubscribe other.id_) ∧
      (∀ s ∈ ((other.moveCtor.1.dtor heap) bus).subscribers_, s.id ≠ other.id_)) ∧
    (∀ (thisPtr otherPtr : HandlePtr) (self : SubscriptionHandle), thisPtr ≠ otherPtr →
      (SubscriptionHandle.moveAssign thisPtr otherPtr self other heap).2.1.released_ = true ∧
      (SubscriptionHandle.moveAssign thisPtr otherPtr self other heap).2.1.bus_ = none ∧
      (SubscriptionHandle.moveAssign thisPtr otherPtr self other heap).2.1.release
          (SubscriptionHandle.moveAssign thisPtr otherPtr self other heap).2.2 =
        (false, (SubscriptionHandle.moveAssign thisPtr otherPtr self other heap).2.1,
          (SubscriptionHandle.moveAssign thisPtr otherPtr self other heap).2.2) ∧
      (SubscriptionHandle.moveAssign thisPtr otherPtr self other heap).2.1.dtor
          (SubscriptionHandle.moveAssign thisPtr otherPtr self other heap).2.2 =
        (SubscriptionHandle.moveAssign thisPtr otherPtr self other heap).2.2 ∧
      ((SubscriptionHandle.moveAssign thisPtr otherPtr self other heap).1.release
          (SubscriptionHandle.moveAssign thisPtr otherPtr self other heap).2.2).1 = true ∧
      (SubscriptionHandle.moveAssign thisPtr otherPtr self other heap).1.dtor
          (SubscriptionHandle.moveAssign thisPtr otherPtr self other heap).2.2 =
        (SubscriptionHandle.moveAssign thisPtr otherPtr self other heap).2.2.store bus
          (((SubscriptionHandle.moveAssign thisPtr otherPtr self other heap).2.2 bus).unsubscribe
            other.id_) ∧
      (∀ s ∈ (((SubscriptionHandle.moveAssign thisPtr otherPtr self other heap).1.dtor
            (SubscriptionHandle.moveAssign thisPtr otherPtr self other heap).2.2) bus).subscribers_,
          s.id ≠ other.id_) ∧
      (SubscriptionHandle.moveAssign thisPtr otherPtr self other heap).2.2 =
        (self.release heap).2.2 ∧
      (self.id_ ≠ other.id_ → ∀ s ∈ (heap bus).subscribers_, s.id = other.id_ →
        s ∈ ((SubscriptionHandle.moveAssign thisPtr otherPtr self other heap).2.2
          bus).subscribers_) ∧
      (self.bus_ ≠ some bus →
        (SubscriptionHandle.moveAssign thisPtr otherPtr self other heap).2.2 bus = heap bus)) := by
  constructor
  · have h1 : other.moveCtor.2.release heap = (false, other.moveCtor.2, heap) :=
      release_released _ _ rfl
    have h2 : other.moveCtor.1.release heap =
        (true, { other.moveCtor.1 with released_ := true, bus_ := none },
          heap.store bus ((heap bus).unsubscribe other.id_)) :=
      release_bound _ _ bus hb hr
    refine ⟨rfl, rfl, h1, ?_, ?_, ?_, ?_, ?_⟩
    · unfold SubscriptionHandle.dtor
      rw [h1]
    · rw [h2]
    · rw [h2]
    · unfold SubscriptionHandle.dtor
      rw [h2]
    · unfold SubscriptionHandle.dtor
      rw [h2]
      show ∀ s ∈ ((heap.store bus ((heap bus).unsubscribe other.id_)) bus).subscribers_, _
      rw [Heap.store_same]
      exact no_id_unsubscribe _ _
  · intro thisPtr otherPtr self hne
    have hm : SubscriptionHandle.moveAssign thisPtr otherPtr self other heap =
        ({ bus_ := other.bus_, id_ := other.id_, released_ := other.released_ },
         { other with bus_ := none, released_ := true },
         (self.release heap).2.2) := by
      unfold SubscriptionHandle.moveAssign
      rw [if_pos hne]
    rw [hm]
    have h1 : ∀ hp : Heap,
        SubscriptionHandle.release { other with bus_ := none, released_ := true } hp =
          (false, { other with bus_ := none, released_ := true }, hp) :=
      fun hp => release_released _ _ rfl
    have h2 : ∀ hp : Heap,
        SubscriptionHandle.release
            { bus_ := other.bus_, id_ := other.id_, released_ := other.released_ } hp =
          (true, { bus_ := none, id_ := other.id_, released_ := true },
            hp.store bus ((hp bus).unsubscribe other.id_)) :=
      fun hp => release_bound _ _ bus hb hr
    refine ⟨rfl, rfl, h1 _, ?_, ?_, ?_, ?_, rfl, ?_, ?_⟩
    · unfold SubscriptionHandle.dtor
      rw [h1]
    · rw [h2]
    · unfold SubscriptionHandle.dtor
      rw [h2]
    · unfold SubscriptionHandle.dtor
      rw [h2]
      show ∀ s ∈ (((self.release heap).2.2.store bus _) bus).subscribers_, _
      rw [Heap.store_same]
      exact no_id_unsubscribe _ _
    · intro hid s hs hsid
      exact release_keeps_other_ids self heap bus s hs (by rw [hsid]; exact fun e => hid e.symm)
    · intro hbus
      exact release_other_bus self heap bus hbus

/-- Witness of C8: the handle of the second subscription of `example2_priority.cpp` is
moved; releasing the moved-from handle leaves the bus as it is. -/
theorem C8_move_transfers_ownership_witness :
    (SubscriptionHandle.ctor 0 1).bus_ = some 0 ∧
    (SubscriptionHandle.ctor 0 1).released_ = false ∧
    (SubscriptionHandle.ctor 0 1).moveCtor.2.release
        (fun _ => run quietEnv [Op.subscribe 0 1 1, Op.subscribe 0 2 10, Op.subscribe 0 3 10]
          EventBus.empty) =
      (false, (SubscriptionHandle.ctor 0 1).moveCtor.2,
        fun _ => run quietEnv [Op.subscribe 0 1 1, Op.subscribe 0 2 10, Op.subscribe 0 3 10]
          EventBus.empty) :=
  ⟨rfl, rfl,
   (C8_move_transfers_ownership (SubscriptionHandle.ctor 0 1)
     (fun _ => run quietEnv [Op.subscribe 0 1 1, Op.subscribe 0 2 10, Op.subscribe 0 3 10]
       EventBus.empty) 0 rfl rfl).1.2.2.1⟩

/-! ## C9: the id counter -/

/-- C9, as amended: `subscribe` returns the counter value before the call and advances the
counter by one modulo `SIZE_MAX + 1` (by exactly one while the counter is below `SIZE_MAX`).
On a new bus, for every sequence of calls that contains at most `SIZE_MAX + 1` subscribe
calls, the ids returned are `0, 1, 2, ...` in call order: strictly increasing and pairwise
different, whatever was unsubscribed in between. -/
theorem C9_fresh_ids :
    (∀ (bus : EventBus) (T : TypeId) (callback : Handler) (priority : Int),
        (bus.subscribe T callback priority).2 = bus.nextId_ ∧
        (bus.subscribe T callback priority).1.nextId_ = (bus.nextId_ + 1) % (SIZE_MAX + 1) ∧
        (bus.nextId_ < SIZE_MAX →
          (bus.subscribe T callback priority).1.nextId_ = bus.nextId_ + 1)) ∧
    (∀ (env : Env) (ops : List Op), subscribeCount ops ≤ SIZE_MAX + 1 →
        issuedIds env ops EventBus.empty = List.range (subscribeCount ops) ∧
        (issuedIds env ops EventBus.empty).Pairwise (fun a b => a < b) ∧
        (issuedIds env ops EventBus.empty).Nodup) := by
  constructor
  · intro bus T callback priority
    refine ⟨rfl, rfl, ?_⟩
    intro h
    show (bus.nextId_ + 1) % (SIZE_MAX + 1) = bus.nextId_ + 1
    exact Nat.mod_eq_of_lt (by omega)
  · intro env ops hc
    have h := (fresh_run env ops 0 EventBus.empty fresh_empty (by omega)).2
    rw [← List.range_eq_range'] at h
    rw [h]
    exact ⟨rfl, List.pairwise_lt_range _, List.nodup_range _⟩

/-- Witness of C9: three subscriptions with an unsubscribe in between get the ids 0, 1, 2. -/
theorem C9_fresh_ids_witness :
    subscribeCount [Op.subscribe 0 1 1, Op.unsubscribe 0, Op.subscribe 0 2 10, Op.subscribe 0 3 10] ≤
        SIZE_MAX + 1 ∧
    issuedIds quietEnv
        [Op.subscribe 0 1 1, Op.unsubscribe 0, Op.subscribe 0 2 10, Op.subscribe 0 3 10]
        EventBus.empty =
      List.range (subscribeCount
        [Op.subscribe 0 1 1, Op.unsubscribe 0, Op.subscribe 0 2 10, Op.subscribe 0 3 10]) :=
  ⟨by decide, (C9_fresh_ids.2 quietEnv _ (by decide)).1⟩

/-- Counterexample to C9 as stated: in `wrapOps` the first `subscribe` returns the id `0`;
after `SIZE_MAX` rounds the counter stands at `SIZE_MAX`, the next `subscribe` returns
`SIZE_MAX` and wraps the counter, and the last `subscribe` returns `0` again. -/
theorem C9_counterexample :
    issuedIds quietEnv wrapOps EventBus.empty = List.range' 0 SIZE_MAX ++ [SIZE_MAX, 0] ∧
      0 ∈ List.range' 0 SIZE_MAX ∧
      ¬ (issuedIds quietEnv wrapOps EventBus.empty).Nodup := by
  have h0 : 0 ∈ List.range' 0 SIZE_MAX := by
    rw [List.mem_range'_1]
    exact ⟨le_refl _, by decide⟩
  refine ⟨issuedIds_wrapOps quietEnv, h0, ?_⟩
  rw [issuedIds_wrapOps]
  intro h
  have hd := (List.nodup_append.1 h).2.2
  exact hd h0 (List.mem_cons_of_mem _ (List.mem_cons_self _ _))

/-! ## C10: a handler that throws -/

theorem publishLoop_no_fault (env : Env) (event : BaseEvent) (pre : List Subscriber)
    (h : ∀ s ∈ pre, s.fault env event = none) :
    publishLoop env event pre =
      { visited := pre, calls := pre.flatMap (Subscriber.dispatch env event), fault := none } := by
  induction pre with
  | nil => rfl
  | cons y ys ih =>
    rw [publishLoop_cons_none env event y ys (h y (List.mem_cons_self _ _)),
      ih (fun s hs => h s (List.mem_cons_of_mem _ hs))]
    rfl

/-- C10: when, during `publish(e)`, the callback of the record at position `k` (the record
`r`, with the records `pre` ahead of it and `post` behind it) throws `f` after the callbacks
of the records ahead of it have returned, then `publish` ends with the exception `f`; the
callbacks called are those of the records ahead of `r`, once each and in order, and then
that of `r`; no callback of a record behind `r` is called; the handler invocations are
those of the records ahead of `r` followed by the one that threw; and the bus is
unchanged. -/
theorem C10_fault_aborts (env : Env) (event : BaseEvent) (bus : EventBus)
    (pre post : List Subscriber) (r : Subscriber) (f : Fault)
    (hsubs : bus.subscribers_ = pre ++ r :: post)
    (hpre : ∀ s ∈ pre, s.fault env event = none)
    (hr : r.fault env event = some f) :
    (bus.publish env event).2.fault = some f ∧
    (bus.publish env event).2.visited = pre ++ [r] ∧
    (bus.publish env event).2.calls =
      pre.flatMap (Subscriber.dispatch env event) ++ r.dispatch env event ∧
    (∃ h, r.dispatch env event = [{ id := r.id, priority := r.priority, handler := h }] ∧
      env.runs h event = some f) ∧
    (bus.publish env event).1 = bus := by
  have hp := publishLoop_no_fault env event pre hpre
  have hfault : (publishLoop env event pre).fault = none := by rw [hp]
  have hall : publishLoop env event (pre ++ r :: post) =
      { visited := pre ++ [r],
        calls := pre.flatMap (Subscriber.dispatch env event) ++ r.dispatch env event,
        fault := some f } := by
    rw [publishLoop_append env event pre _ hfault, publishLoop_cons_some env event r post f hr, hp]
  refine ⟨?_, ?_, ?_, ?_, rfl⟩
  · show (publishLoop env event bus.subscribers_).fault = _
    rw [hsubs, hall]
  · show (publishLoop env event bus.subscribers_).visited = _
    rw [hsubs, hall]
  · show (publishLoop env event bus.subscribers_).calls = _
    rw [hsubs, hall]
  · unfold Subscriber.fault at hr
    unfold Subscriber.dispatch
    cases ht : r.callback.target env event with
    | none => rw [ht] at hr; cases hr
    | some h =>
      rw [ht] at hr
      exact ⟨h, rfl, hr⟩

/-- Witness of C10: three subscribers for one class with priorities 20, 10 and 1; the
handler `7` of the second one throws. -/
theorem C10_fault_aborts_witness :
    (run quietEnv [Op.subscribe 0 1 20, Op.subscribe 0 7 10, Op.subscribe 0 8 1]
        EventBus.empty).subscribers_ =
      [{ callback := Callback.wrapper 0 1, priority := 20, id := 0 }] ++
        { callback := Callback.wrapper 0 7, priority := 10, id := 1 } ::
          [{ callback := Callback.wrapper 0 8, priority := 1, id := 2 }] ∧
    ((run quietEnv [Op.subscribe 0 1 20, Op.subscribe 0 7 10, Op.subscribe 0 8 1]
        EventBus.empty).publish faultyEnv ⟨0, 0⟩).2.fault = some 1 ∧
    ((run quietEnv [Op.subscribe 0 1 20, Op.subscribe 0 7 10, Op.subscribe 0 8 1]
        EventBus.empty).publish faultyEnv ⟨0, 0⟩).2.visited =
      [{ callback := Callback.wrapper 0 1, priority := 20, id := 0 }] ++
        [{ callback := Callback.wrapper 0 7, priority := 10, id := 1 }] :=
  ⟨by decide,
   (C10_fault_aborts faultyEnv ⟨0, 0⟩ _
     [{ callback := Callback.wrapper 0 1, priority := 20, id := 0 }]
     [{ callback := Callback.wrapper 0 8, priority := 1, id := 2 }]
     { callback := Callback.wrapper 0 7, priority := 10, id := 1 } 1
     (by decide) (by decide) (by decide)).1,
   (C10_fault_aborts faultyEnv ⟨0, 0⟩ _
     [{ callback := Callback.wrapper 0 1, priority := 20, id := 0 }]
     [{ callback := Callback.wrapper 0 8, priority := 1, id := 2 }]
     { callback := Callback.wrapper 0 7, priority := 10, id := 1 } 1
     (by decide) (by decide) (by decide)).2.1⟩

/-! ## C11 and C12: updateCallback through the handle -/

theorem handle_updateCallback_bound (h : SubscriptionHandle) (heap : Heap) (bus : BusPtr)
    (T : TypeId) (newCallback : Handler) (hb : h.bus_ = some bus) (hr : h.released_ = false) :
    h.updateCallback heap T newCallback =
      (((heap bus).updateCallback h.id_ (Callback.wrapper T newCallback)).1,
        heap.store bus ((heap bus).updateCallback h.id_ (Callback.wrapper T newCallback)).2) := by
  unfold SubscriptionHandle.updateCallback
  rw [hb, hr]

theorem handle_updateCallback_released (h : SubscriptionHandle) (heap : Heap) (T : TypeId)
    (newCallback : Handler) (hr : h.released_ = true) :
    h.updateCallback heap T newCallback = (false, heap) := by
  unfold SubscriptionHandle.updateCallback
  rw [hr]

theorem handle_updateCallback_unbound (h : SubscriptionHandle) (heap : Heap) (T : TypeId)
    (newCallback : Handler) (hb : h.bus_ = none) :
    h.updateCallback heap T newCallback = (false, heap) := by
  unfold SubscriptionHandle.updateCallback
  rw [hb]
  cases h.released_ <;> rfl

theorem release_result_not_bound (h : SubscriptionHandle) (heap : Heap) :
    (h.release heap).2.1.released_ = true ∨ (h.release heap).2.1.bus_ = none := by
  unfold SubscriptionHandle.release
  split
  · left; rfl
  · rename_i hne
    by_cases hr : h.released_ = true
    · left; exact hr
    · right
      cases hb : h.bus_ with
      | none => rfl
      | some b => exact absurd hb (hne b (by simpa using hr))

theorem publishLoop_split (env : Env) (event : BaseEvent) (pre post : List Subscriber)
    (r : Subscriber) (hpre : (publishLoop env event pre).fault = none) :
    (publishLoop env event (pre ++ r :: post)).calls =
      (publishLoop env event pre).calls ++ r.dispatch env event ++
        (if (r.fault env event).isSome then [] else (publishLoop env event post).calls) :=
  publish_split env event pre post r 0 hpre

/-- C11, as amended: `SubscriptionHandle::updateCallback<T>(newCallback)` wraps the
replacement for the type `T` named at this call; the handle does not store the type of the
subscription.  After a successful update the first record `r` with the id of the handle holds
the adapter of `newCallback` for `T` in the same place; in any `publish` the record is
reached or not reached exactly as before the update, and when it is reached it invokes
`newCallback` exactly when the dynamic type of the event is `T` or derives from `T`.  When
`T` is the type `T0` of the original subscription, the record invokes its callback for
exactly the events for which the original registration did. -/
theorem C11_update_rewraps (h : SubscriptionHandle) (heap : Heap) (bus : BusPtr) (T : TypeId)
    (newCallback : Handler) (hb : h.bus_ = some bus) (hr : h.released_ = false)
    (hok : (h.updateCallback heap T newCallback).1 = true) :
    ∃ pre r post, (heap bus).subscribers_ = pre ++ r :: post ∧ r.id = h.id_ ∧
      (∀ s ∈ pre, s.id ≠ h.id_) ∧
      ((h.updateCallback heap T newCallback).2 bus).subscribers_ =
        pre ++ { r with callback := Callback.wrapper T newCallback } :: post ∧
      (∀ (env : Env) (event : BaseEvent),
        Subscriber.dispatch env event { r with callback := Callback.wrapper T newCallback } =
          if env.derives event.dynType T then
            [{ id := h.id_, priority := r.priority, handler := newCallback }] else []) ∧
      (∀ (env : Env) (event : BaseEvent),
        ((publishLoop env event pre).fault = none →
          (((h.updateCallback heap T newCallback).2 bus).publish env event).2.calls =
              (publishLoop env event pre).calls ++
                Subscriber.dispatch env event
                  { r with callback := Callback.wrapper T newCallback } ++
                (if (Subscriber.fault env event
                    { r with callback := Callback.wrapper T newCallback }).isSome then []
                  else (publishLoop env event post).calls) ∧
          ((heap bus).publish env event).2.calls =
              (publishLoop env event pre).calls ++ r.dispatch env event ++
                (if (r.fault env event).isSome then []
                  else (publishLoop env event post).calls)) ∧
        (∀ f, (publishLoop env event pre).fault = some f →
          (((h.updateCallback heap T newCallback).2 bus).publish env event).2 =
              publishLoop env event pre ∧
          ((heap bus).publish env event).2 = publishLoop env event pre)) ∧
      (∀ (T0 : TypeId) (callback0 : Handler), r.callback = Callback.wrapper T0 callback0 →
        T = T0 → ∀ (env : Env) (event : BaseEvent),
          (Subscriber.dispatch env event { r with callback := Callback.wrapper T newCallback } ≠ [] ↔
            r.dispatch env event ≠ [])) := by
  have hex : ∃ s ∈ (heap bus).subscribers_, s.id = h.id_ := by
    rw [handle_updateCallback_bound h heap bus T newCallback hb hr] at hok
    by_contra hne
    have habs : ∀ s ∈ (heap bus).subscribers_, s.id ≠ h.id_ := by
      intro s hs hid
      exact hne ⟨s, hs, hid⟩
    have hfalse := (updateFirst_false_iff h.id_ (Callback.wrapper T newCallback)
      (heap bus).subscribers_).2 habs
    have hok2 : (updateFirst h.id_ (Callback.wrapper T newCallback) (heap bus).subscribers_).1 =
        true := hok
    rw [hfalse] at hok2
    cases hok2
  obtain ⟨pre, r, post, e, hrid, hp⟩ := first_with_id h.id_ (heap bus).subscribers_ hex
  have hu := updateFirst_at h.id_ (Callback.wrapper T newCallback) pre post r hrid hp
  have hstate : ((h.updateCallback heap T newCallback).2 bus).subscribers_ =
      pre ++ { r with callback := Callback.wrapper T newCallback } :: post := by
    rw [handle_updateCallback_bound h heap bus T newCallback hb hr]
    show ((heap.store bus _) bus).subscribers_ = _
    rw [Heap.store_same]
    show (updateFirst h.id_ (Callback.wrapper T newCallback) (heap bus).subscribers_).2 = _
    rw [e, hu]
  have hd : ∀ (env : Env) (event : BaseEvent),
      Subscriber.dispatch env event { r with callback := Callback.wrapper T newCallback } =
        if env.derives event.dynType T then
          [{ id := h.id_, priority := r.priority, handler := newCallback }] else [] := by
    intro env event
    rw [dispatch_wrapper env event _ T newCallback rfl]
    show (if env.derives event.dynType T = true then
      [({ id := r.id, priority := r.priority, handler := newCallback } : Invocation)] else []) = _
    rw [hrid]
  refine ⟨pre, r, post, e, hrid, hp, hstate, hd, ?_, ?_⟩
  · intro env event
    constructor
    · intro hpre
      constructor
      · show (publishLoop env event
          ((h.updateCallback heap T newCallback).2 bus).subscribers_).calls = _
        rw [hstate]
        exact publishLoop_split env event pre post _ hpre
      · show (publishLoop env event (heap bus).subscribers_).calls = _
        rw [e]
        exact publishLoop_split env event pre post r hpre
    · intro f hf
      constructor
      · show publishLoop env event
          ((h.updateCallback heap T newCallback).2 bus).subscribers_ = _
        rw [hstate]
        exact publishLoop_append_fault env event pre _ f hf
      · show publishLoop env event (heap bus).subscribers_ = _
        rw [e]
        exact publishLoop_append_fault env event pre _ f hf
  · intro T0 callback0 hcb hT env event
    rw [hd, dispatch_wrapper env event r T0 callback0 hcb, hT]
    by_cases hder : env.derives event.dynType T0 = true <;> simp [hder]

/-- Witness of C11: `example4_update_callback.cpp`, a subscription for class `0` whose
callback is replaced through the handle, again for class `0`. -/
theorem C11_update_rewraps_witness :
    (subscribe (fun _ => EventBus.empty) 0 0 1 5).2.bus_ = some 0 ∧
    (subscribe (fun _ => EventBus.empty) 0 0 1 5).2.released_ = false ∧
    ((subscribe (fun _ => EventBus.empty) 0 0 1 5).2.updateCallback
        (subscribe (fun _ => EventBus.empty) 0 0 1 5).1 0 2).1 = true ∧
    ∃ pre r post,
      ((subscribe (fun _ => EventBus.empty) 0 0 1 5).1 0).subscribers_ = pre ++ r :: post ∧
      r.id = (subscribe (fun _ => EventBus.empty) 0 0 1 5).2.id_ :=
  ⟨rfl, rfl, by decide,
   by
    obtain ⟨pre, r, post, h1, h2, _⟩ :=
      C11_update_rewraps (subscribe (fun _ => EventBus.empty) 0 0 1 5).2
        (subscribe (fun _ => EventBus.empty) 0 0 1 5).1 0 0 2 rfl rfl (by decide)
    exact ⟨pre, r, post, h1, h2⟩⟩

/-- Counterexample to C11 as stated: with the classes of `example3_inheritance.cpp`, a
subscription for `BaseGameEvent` is updated through its handle with a callback for
`PlayerJoinedEvent`.  The update succeeds; a `ScoreUpdatedEvent` was delivered to the
original registration and is not delivered after the update. -/
theorem C11_counterexample :
    ((subscribe (fun _ => EventBus.empty) 0 1 10 5).2.updateCallback
        (subscribe (fun _ => EventBus.empty) 0 1 10 5).1 2 11).1 = true ∧
      (((subscribe (fun _ => EventBus.empty) 0 1 10 5).1 0).publish gameEnv ⟨3, 0⟩).2.calls =
        [{ id := 0, priority := 5, handler := 10 }] ∧
      ((((subscribe (fun _ => EventBus.empty) 0 1 10 5).2.updateCallback
        (subscribe (fun _ => EventBus.empty) 0 1 10 5).1 2 11).2 0).publish
          gameEnv ⟨3, 0⟩).2.calls = [] := by
  decide

/-- C12: `SubscriptionHandle::updateCallback` on a handle that is released or has no bus
returns false and leaves every bus as it is; this is the case after `release()` and for a
handle that was moved from.  On a bound handle it returns what `EventBus::updateCallback`
returns for the id of the handle and the adapter of the new callback, and the bus of the
handle becomes what that call makes of it. -/
theorem C12_handle_updateCallback_result :
    (∀ (h : SubscriptionHandle) (heap : Heap) (T : TypeId) (newCallback : Handler),
        (h.released_ = true ∨ h.bus_ = none) →
        h.updateCallback heap T newCallback = (false, heap)) ∧
    (∀ (h : SubscriptionHandle) (heap : Heap) (T : TypeId) (newCallback : Handler),
        (h.release heap).2.1.updateCallback (h.release heap).2.2 T newCallback =
          (false, (h.release heap).2.2)) ∧
    (∀ (other : SubscriptionHandle) (heap : Heap) (T : TypeId) (newCallback : Handler),
        other.moveCtor.2.updateCallback heap T newCallback = (false, heap)) ∧
    (∀ (thisPtr otherPtr : HandlePtr) (self other : SubscriptionHandle) (heap : Heap)
        (T : TypeId) (newCallback : Handler), thisPtr ≠ otherPtr →
        (SubscriptionHandle.moveAssign thisPtr otherPtr self other heap).2.1.updateCallback
            (SubscriptionHandle.moveAssign thisPtr otherPtr self other heap).2.2 T newCallback =
          (false, (SubscriptionHandle.moveAssign thisPtr otherPtr self other heap).2.2)) ∧
    (∀ (h : SubscriptionHandle) (heap : Heap) (bus : BusPtr) (T : TypeId)
        (newCallback : Handler), h.bus_ = some bus → h.released_ = false →
        (h.updateCallback heap T newCallback).1 =
            ((heap bus).updateCallback h.id_ (Callback.wrapper T newCallback)).1 ∧
        (h.updateCallback heap T newCallback).2 =
            heap.store bus
              ((heap bus).updateCallback h.id_ (Callback.wrapper T newCallback)).2) := by
  refine ⟨?_, ?_, ?_, ?_, ?_⟩
  · intro h heap T newCallback hc
    rcases hc with hr | hb
    · exact handle_updateCallback_released h heap T newCallback hr
    · exact handle_updateCallback_unbound h heap T newCallback hb
  · intro h heap T newCallback
    rcases release_result_not_bound h heap with hr | hb
    · exact handle_updateCallback_released _ _ T newCallback hr
    · exact handle_updateCallback_unbound _ _ T newCallback hb
  · intro other heap T newCallback
    exact handle_updateCallback_released _ _ T newCallback rfl
  · intro thisPtr otherPtr self other heap T newCallback hne
    have hm : SubscriptionHandle.moveAssign thisPtr otherPtr self other heap =
        ({ bus_ := other.bus_, id_ := other.id_, released_ := other.released_ },
         { other with bus_ := none, released_ := true },
         (self.release heap).2.2) := by
      unfold SubscriptionHandle.moveAssign
      rw [if_pos hne]
    rw [hm]
    exact handle_updateCallback_released _ _ T newCallback rfl
  · intro h heap bus T newCallback hb hr
    rw [handle_updateCallback_bound h heap bus T newCallback hb hr]
    exact ⟨rfl, rfl⟩

/-- Witness of C12: the handle of `example4_update_callback.cpp`, bound to the bus at
address `0`. -/
theorem C12_handle_updateCallback_result_witness :
    (subscribe (fun _ => EventBus.empty) 0 0 1 5).2.bus_ = some 0 ∧
    (subscribe (fun _ => EventBus.empty) 0 0 1 5).2.released_ = false ∧
    ((subscribe (fun _ => EventBus.empty) 0 0 1 5).2.updateCallback
        (subscribe (fun _ => EventBus.empty) 0 0 1 5).1 0 2).1 =
      (((subscribe (fun _ => EventBus.empty) 0 0 1 5).1 0).updateCallback
        (subscribe (fun _ => EventBus.empty) 0 0 1 5).2.id_ (Callback.wrapper 0 2)).1 :=
  ⟨rfl, rfl,
   (C12_handle_updateCallback_result.2.2.2.2 (subscribe (fun _ => EventBus.empty) 0 0 1 5).2
     (subscribe (fun _ => EventBus.empty) 0 0 1 5).1 0 0 2 rfl rfl).1⟩

/-! ## C13 and C18: the states of a handle -/

theorem moveAssign_distinct (thisPtr otherPtr : HandlePtr) (self other : SubscriptionHandle)
    (heap : Heap) (hne : thisPtr ≠ otherPtr) :
    SubscriptionHandle.moveAssign thisPtr otherPtr self other heap =
      ({ bus_ := other.bus_, id_ := other.id_, released_ := other.released_ },
       { other with bus_ := none, released_ := true },
       (self.release heap).2.2) := by
  unfold SubscriptionHandle.moveAssign
  rw [if_pos hne]

theorem moveAssign_same (thisPtr otherPtr : HandlePtr) (self other : SubscriptionHandle)
    (heap : Heap) (he : thisPtr = otherPtr) :
    SubscriptionHandle.moveAssign thisPtr otherPtr self other heap = (self, other, heap) := by
  unfold SubscriptionHandle.moveAssign
  rw [if_neg (not_not.2 he)]

/-- C13, as amended: once `released_` is true, `release()`, `updateCallback` and the
destructor change neither the handle nor any bus, and a handle that is moved from (by move
construction or by move assignment) stays released.  As the destination of a move
assignment from another handle object the handle takes over the state of the source: it
stays released when the source is released, and it is bound again when the source is
bound. -/
theorem C13_released_is_kept (h : SubscriptionHandle) (hr : h.released_ = true) :
    (∀ heap : Heap, h.release heap = (false, h, heap)) ∧
    (∀ (heap : Heap) (T : TypeId) (newCallback : Handler),
        h.updateCallback heap T newCallback = (false, heap)) ∧
    (∀ heap : Heap, h.dtor heap = heap) ∧
    h.moveCtor.2.released_ = true ∧
    (∀ (thisPtr otherPtr : HandlePtr) (self : SubscriptionHandle) (heap : Heap),
        (SubscriptionHandle.moveAssign thisPtr otherPtr self h heap).2.1.released_ = true) ∧
    (∀ (thisPtr otherPtr : HandlePtr) (other : SubscriptionHandle) (heap : Heap),
        other.released_ = true →
        (SubscriptionHandle.moveAssign thisPtr otherPtr h other heap).1.released_ = true) ∧
    (∀ (thisPtr otherPtr : HandlePtr) (other : SubscriptionHandle) (heap : Heap),
        thisPtr ≠ otherPtr →
        (SubscriptionHandle.moveAssign thisPtr otherPtr h other heap).1 =
            { bus_ := other.bus_, id_ := other.id_, released_ := other.released_ } ∧
        (SubscriptionHandle.moveAssign thisPtr otherPtr h other heap).2.2 = heap) := by
  have hrel : ∀ heap : Heap, h.release heap = (false, h, heap) :=
    fun heap => release_released h heap hr
  refine ⟨hrel, ?_, ?_, rfl, ?_, ?_, ?_⟩
  · intro heap T newCallback
    exact handle_updateCallback_released h heap T newCallback hr
  · intro heap
    unfold SubscriptionHandle.dtor
    rw [hrel]
  · intro thisPtr otherPtr self heap
    by_cases hne : thisPtr ≠ otherPtr
    · rw [moveAssign_distinct thisPtr otherPtr self h heap hne]
    · rw [moveAssign_same thisPtr otherPtr self h heap (not_not.1 hne)]
      exact hr
  · intro thisPtr otherPtr other heap ho
    by_cases hne : thisPtr ≠ otherPtr
    · rw [moveAssign_distinct thisPtr otherPtr h other heap hne]
      exact ho
    · rw [moveAssign_same thisPtr otherPtr h other heap (not_not.1 hne)]
      exact hr
  · intro thisPtr otherPtr other heap hne
    rw [moveAssign_distinct thisPtr otherPtr h other heap hne, hrel]
    exact ⟨rfl, rfl⟩

/-- Witness of C13: the handle of a subscription after `release()`. -/
theorem C13_released_is_kept_witness :
    ((SubscriptionHandle.ctor 0 0).release (fun _ => EventBus.empty)).2.1.released_ = true ∧
    ((SubscriptionHandle.ctor 0 0).release (fun _ => EventBus.empty)).2.1.moveCtor.2.released_ =
      true :=
  ⟨rfl,
   (C13_released_is_kept ((SubscriptionHandle.ctor 0 0).release (fun _ => EventBus.empty)).2.1
     rfl).2.2.2.1⟩

/-- Counterexample to C13 as stated: a handle that has been released is the destination of
a move assignment from a bound handle at another address; afterwards it is not released and
holds the bus of the source. -/
theorem C13_counterexample :
    ((SubscriptionHandle.ctor 0 0).release (fun _ => EventBus.empty)).2.1.released_ = true ∧
      (SubscriptionHandle.moveAssign 0 1
          ((SubscriptionHandle.ctor 0 0).release (fun _ => EventBus.empty)).2.1
          (SubscriptionHandle.ctor 0 1) (fun _ => EventBus.empty)).1.released_ = false ∧
      (SubscriptionHandle.moveAssign 0 1
          ((SubscriptionHandle.ctor 0 0).release (fun _ => EventBus.empty)).2.1
          (SubscriptionHandle.ctor 0 1) (fun _ => EventBus.empty)).1.bus_ = some 0 := by
  decide

theorem reachable_invariant (h : SubscriptionHandle) (hreach : h.Reachable) :
    h.released_ = true → h.bus_ = none := by
  induction hreach with
  | ctor bus id =>
    intro hr
    cases hr
  | release h heap _ ih =>
    unfold SubscriptionHandle.release
    split
    · intro _; rfl
    · exact ih
  | moveCtorNew other _ ih => exact ih
  | moveCtorOther other _ _ => intro _; rfl
  | moveAssignThis thisPtr otherPtr self other heap _ _ ihs iho =>
    by_cases hne : thisPtr ≠ otherPtr
    · rw [moveAssign_distinct thisPtr otherPtr self other heap hne]
      exact iho
    · rw [moveAssign_same thisPtr otherPtr self other heap (not_not.1 hne)]
      exact ihs
  | moveAssignOther thisPtr otherPtr self other heap _ _ _ iho =>
    by_cases hne : thisPtr ≠ otherPtr
    · rw [moveAssign_distinct thisPtr otherPtr self other heap hne]
      intro _; rfl
    · rw [moveAssign_same thisPtr otherPtr self other heap (not_not.1 hne)]
      exact iho

/-- C18: in every handle state that the constructor, `release()`, the move constructor and
the move assignment can produce (`updateCallback` writes no member), `released_ = true`
implies that `bus_` is null; on such a handle `release()` and `updateCallback` return false
and reach no bus. -/
theorem C18_released_implies_unbound (h : SubscriptionHandle) (hreach : h.Reachable) :
    (h.released_ = true → h.bus_ = none) ∧
    (h.released_ = true → ∀ heap : Heap, h.release heap = (false, h, heap)) ∧
    (h.released_ = true → ∀ (heap : Heap) (T : TypeId) (newCallback : Handler),
      h.updateCallback heap T newCallback = (false, heap)) := by
  refine ⟨reachable_invariant h hreach, ?_, ?_⟩
  · intro hr heap
    exact release_released h heap hr
  · intro hr heap T newCallback
    exact handle_updateCallback_released h heap T newCallback hr

/-- Witness of C18: a handle is constructed, moved by assignment into a second handle, and
the second handle is released. -/
theorem C18_released_implies_unbound_witness :
    ((SubscriptionHandle.moveAssign 0 1 (SubscriptionHandle.ctor 0 0) (SubscriptionHandle.ctor 0 1)
        (fun _ => EventBus.empty)).1.release (fun _ => EventBus.empty)).2.1.Reachable ∧
    (((SubscriptionHandle.moveAssign 0 1 (SubscriptionHandle.ctor 0 0) (SubscriptionHandle.ctor 0 1)
        (fun _ => EventBus.empty)).1.release (fun _ => EventBus.empty)).2.1.released_ = true →
      ((SubscriptionHandle.moveAssign 0 1 (SubscriptionHandle.ctor 0 0)
        (SubscriptionHandle.ctor 0 1) (fun _ => EventBus.empty)).1.release
          (fun _ => EventBus.empty)).2.1.bus_ = none) :=
  ⟨SubscriptionHandle.Reachable.release _ _
     (SubscriptionHandle.Reachable.moveAssignThis 0 1 _ _ _
       (SubscriptionHandle.Reachable.ctor 0 0) (SubscriptionHandle.Reachable.ctor 0 1)),
   (C18_released_implies_unbound _
     (SubscriptionHandle.Reachable.release _ _
       (SubscriptionHandle.Reachable.moveAssignThis 0 1 _ _ _
         (SubscriptionHandle.Reachable.ctor 0 0) (SubscriptionHandle.Reachable.ctor 0 1)))).1⟩

/-! ## C19 and C20: move assignment and release against the registry -/

theorem unsubscribe_absent (bus : EventBus) (id : Nat) (h : ∀ s ∈ bus.subscribers_, s.id ≠ id) :
    bus.unsubscribe id = bus := by
  unfold EventBus.unsubscribe
  have hf : bus.subscribers_.filter (fun s => !(decide (s.id = id))) = bus.subscribers_ := by
    rw [List.filter_eq_self]
    intro s hs
    simpa using h s hs
  rw [hf]

theorem Heap.store_self (heap : Heap) (p : BusPtr) : heap.store p (heap p) = heap := by
  funext q
  unfold Heap.store
  split
  · rename_i e
    rw [e]
  · rfl

/-- C19, as amended: move-assigning `b` onto a bound handle `a` at another address first
releases the subscription of `a`: afterwards the bus of `a` holds no record with the former
id of `a`, `a` holds the (bus, id, released) state of `b`, `b` is released and unbound, and
every record on another bus or with another id is still registered; so the record with the
id of `b` is still registered unless that id is the former id of `a` on the same bus.  A
move assignment of a handle to itself changes nothing. -/
theorem C19_move_assign (thisPtr otherPtr : HandlePtr) (a b : SubscriptionHandle) (heap : Heap)
    (bus : BusPtr) (hab : a.bus_ = some bus) (har : a.released_ = false) :
    (thisPtr ≠ otherPtr →
      (SubscriptionHandle.moveAssign thisPtr otherPtr a b heap).1 =
          { bus_ := b.bus_, id_ := b.id_, released_ := b.released_ } ∧
      (SubscriptionHandle.moveAssign thisPtr otherPtr a b heap).2.1 =
          { bus_ := none, id_ := b.id_, released_ := true } ∧
      (SubscriptionHandle.moveAssign thisPtr otherPtr a b heap).2.2 =
          heap.store bus ((heap bus).unsubscribe a.id_) ∧
      (∀ s ∈ ((SubscriptionHandle.moveAssign thisPtr otherPtr a b heap).2.2 bus).subscribers_,
          s.id ≠ a.id_) ∧
      (∀ (q : BusPtr) (s : Subscriber), s ∈ (heap q).subscribers_ → (q ≠ bus ∨ s.id ≠ a.id_) →
          s ∈ ((SubscriptionHandle.moveAssign thisPtr otherPtr a b heap).2.2 q).subscribers_) ∧
      (∀ q : BusPtr, q ≠ bus →
          (SubscriptionHandle.moveAssign thisPtr otherPtr a b heap).2.2 q = heap q)) ∧
    (thisPtr = otherPtr →
      SubscriptionHandle.moveAssign thisPtr otherPtr a b heap = (a, b, heap)) := by
  constructor
  · intro hne
    rw [moveAssign_distinct thisPtr otherPtr a b heap hne, release_bound a heap bus hab har]
    refine ⟨rfl, rfl, rfl, ?_, ?_, ?_⟩
    · show ∀ s ∈ ((heap.store bus ((heap bus).unsubscribe a.id_)) bus).subscribers_, _
      rw [Heap.store_same]
      exact no_id_unsubscribe _ _
    · intro q s hs hq
      show s ∈ ((heap.store bus ((heap bus).unsubscribe a.id_)) q).subscribers_
      by_cases e : q = bus
      · subst e
        rw [Heap.store_same]
        rcases hq with hq | hq
        · exact absurd rfl hq
        · exact List.mem_filter.2 ⟨hs, by simpa using hq⟩
      · rw [Heap.store_other _ _ _ _ e]
        exact hs
    · intro q hq
      exact Heap.store_other _ _ _ _ hq
  · intro he
    exact moveAssign_same thisPtr otherPtr a b heap he

/-- Witness of C19: on the bus of `example2_priority.cpp` the handle of the third
subscription is move-assigned onto the handle of the second. -/
theorem C19_move_assign_witness :
    (SubscriptionHandle.ctor 0 1).bus_ = some 0 ∧
    (SubscriptionHandle.ctor 0 1).released_ = false ∧
    (SubscriptionHandle.moveAssign 0 1 (SubscriptionHandle.ctor 0 1) (SubscriptionHandle.ctor 0 2)
        (fun _ => run quietEnv [Op.subscribe 0 1 1, Op.subscribe 0 2 10, Op.subscribe 0 3 10]
          EventBus.empty)).1 = { bus_ := some 0, id_ := 2, released_ := false } :=
  ⟨rfl, rfl,
   ((C19_move_assign 0 1 (SubscriptionHandle.ctor 0 1) (SubscriptionHandle.ctor 0 2)
     (fun _ => run quietEnv [Op.subscribe 0 1 1, Op.subscribe 0 2 10, Op.subscribe 0 3 10]
       EventBus.empty) 0 rfl rfl).1 (by decide)).1⟩

/-- Counterexample to C19 as stated.  First: a subscription is made on a new bus, its handle
is moved into `a` by move construction, and the moved-from handle `b`, which still carries
the id `0`, is then move-assigned onto `a`; the record with the id of `b` was registered
before the assignment and is gone after it.  Second: two bound handles constructed for the
same bus and id; after the assignment `a` is bound to the id but the record is gone. -/
theorem C19_counterexample :
    ((subscribe (fun _ => EventBus.empty) 0 0 1 5).2.moveCtor.1.bus_ = some 0 ∧
      (subscribe (fun _ => EventBus.empty) 0 0 1 5).2.moveCtor.1.released_ = false ∧
      (subscribe (fun _ => EventBus.empty) 0 0 1 5).2.moveCtor.2.id_ = 0 ∧
      ((subscribe (fun _ => EventBus.empty) 0 0 1 5).1 0).subscribers_ =
        [{ callback := Callback.wrapper 0 1, priority := 5, id := 0 }] ∧
      ((SubscriptionHandle.moveAssign 0 1 (subscribe (fun _ => EventBus.empty) 0 0 1 5).2.moveCtor.1
          (subscribe (fun _ => EventBus.empty) 0 0 1 5).2.moveCtor.2
          (subscribe (fun _ => EventBus.empty) 0 0 1 5).1).2.2 0).subscribers_ = []) ∧
    ((SubscriptionHandle.ctor 0 0).bus_ = some 0 ∧
      (SubscriptionHandle.ctor 0 0).released_ = false ∧
      ((SubscriptionHandle.moveAssign 0 1 (SubscriptionHandle.ctor 0 0) (SubscriptionHandle.ctor 0 0)
          (subscribe (fun _ => EventBus.empty) 0 0 1 5).1).2.2 0).subscribers_ = [] ∧
      (SubscriptionHandle.moveAssign 0 1 (SubscriptionHandle.ctor 0 0) (SubscriptionHandle.ctor 0 0)
          (subscribe (fun _ => EventBus.empty) 0 0 1 5).1).1 =
        { bus_ := some 0, id_ := 0, released_ := false }) := by
  decide

/-- C20: the result of `release()` and the handle it leaves are the same whatever the buses
hold.  On a bound handle whose record is no longer in the registry, in particular after a
direct `EventBus::unsubscribe(id)`, `release()` returns true, marks the handle released and
unbound, and leaves every bus as it is. -/
theorem C20_release_ignores_registry :
    (∀ (h : SubscriptionHandle) (heap1 heap2 : Heap),
        (h.release heap1).1 = (h.release heap2).1 ∧
        (h.release heap1).2.1 = (h.release heap2).2.1) ∧
    (∀ (h : SubscriptionHandle) (heap : Heap) (bus : BusPtr),
        h.bus_ = some bus → h.released_ = false →
        (∀ s ∈ (heap bus).subscribers_, s.id ≠ h.id_) →
        h.release heap = (true, { bus_ := none, id_ := h.id_, released_ := true }, heap)) ∧
    (∀ (h : SubscriptionHandle) (heap : Heap) (bus : BusPtr),
        h.bus_ = some bus → h.released_ = false →
        h.release (heap.store bus ((heap bus).unsubscribe h.id_)) =
          (true, { bus_ := none, id_ := h.id_, released_ := true },
            heap.store bus ((heap bus).unsubscribe h.id_))) := by
  have key : ∀ (h : SubscriptionHandle) (heap : Heap) (bus : BusPtr),
      h.bus_ = some bus → h.released_ = false →
      (∀ s ∈ (heap bus).subscribers_, s.id ≠ h.id_) →
      h.release heap = (true, { bus_ := none, id_ := h.id_, released_ := true }, heap) := by
    intro h heap bus hb hr habs
    rw [release_bound h heap bus hb hr, unsubscribe_absent _ _ habs, Heap.store_self]
  refine ⟨?_, key, ?_⟩
  · intro h heap1 heap2
    unfold SubscriptionHandle.release
    split <;> exact ⟨rfl, rfl⟩
  · intro h heap bus hb hr
    apply key h _ bus hb hr
    rw [Heap.store_same]
    exact no_id_unsubscribe _ _

/-- Witness of C20: on the bus of `example2_priority.cpp` the id `1` is unsubscribed
directly, and then its handle is released. -/
theorem C20_release_ignores_registry_witness :
    (SubscriptionHandle.ctor 0 1).bus_ = some 0 ∧
    (SubscriptionHandle.ctor 0 1).released_ = false ∧
    ((SubscriptionHandle.ctor 0 1).release
        (Heap.store
          (fun _ => run quietEnv [Op.subscribe 0 1 1, Op.subscribe 0 2 10, Op.subscribe 0 3 10]
            EventBus.empty) 0
          ((run quietEnv [Op.subscribe 0 1 1, Op.subscribe 0 2 10, Op.subscribe 0 3 10]
            EventBus.empty).unsubscribe 1))).1 = true :=
  ⟨rfl, rfl,
   congrArg Prod.fst
     (C20_release_ignores_registry.2.2 (SubscriptionHandle.ctor 0 1)
       (fun _ => run quietEnv [Op.subscribe 0 1 1, Op.subscribe 0 2 10, Op.subscribe 0 3 10]
         EventBus.empty) 0 rfl rfl)⟩

/-! ## C14: the ordering invariant -/

theorem subscribe_appends_to_priority (bus : EventBus) (T : TypeId) (callback : Handler)
    (p q : Int) :
    (bus.subscribe T callback p).1.subscribers_.filter (fun s => decide (s.priority = q)) =
      bus.subscribers_.filter (fun s => decide (s.priority = q)) ++
        (if p = q then
          [{ callback := Callback.wrapper T callback, priority := p, id := bus.nextId_ }]
        else []) := by
  show (stable_sort priorityGreater (bus.subscribers_ ++ _)).filter _ = _
  rw [stable_sort_stable, List.filter_append]
  congr 1
  by_cases h : p = q <;> simp [List.filter_cons, h]

/-- C14, as amended: in every state reachable from a new bus by subscribe, unsubscribe,
updateCallback and publish calls the records are in non-increasing priority order and,
within a priority, in the order of registration: written with the registration number of
each record (the number of earlier subscribe calls, of which the id is the remainder modulo
`SIZE_MAX + 1`), the numbers increase within a priority; on any bus a `subscribe` puts the
new record behind all records of its priority and leaves the records of every priority in
their order.  This is ascending id order when at most `SIZE_MAX + 1` subscribe calls were
made. -/
theorem C14_ordering_invariant :
    (∀ (env : Env) (ops : List Op),
        (run env ops EventBus.empty).subscribers_.Pairwise
          (fun a b => b.priority ≤ a.priority)) ∧
    (∀ (env : Env) (ops : List Op),
        (ledgerRun ops Ledger.empty).bus = run env ops EventBus.empty ∧
        (ledgerRun ops Ledger.empty).entries.Pairwise Registered.before ∧
        (∀ e ∈ (ledgerRun ops Ledger.empty).entries,
          e.stamp < subscribeCount ops ∧ e.subscriber.id = e.stamp % (SIZE_MAX + 1))) ∧
    (∀ (bus : EventBus) (T : TypeId) (callback : Handler) (p q : Int),
        (bus.subscribe T callback p).1.subscribers_.filter (fun s => decide (s.priority = q)) =
          bus.subscribers_.filter (fun s => decide (s.priority = q)) ++
            (if p = q then
              [{ callback := Callback.wrapper T callback, priority := p, id := bus.nextId_ }]
            else [])) ∧
    (∀ (env : Env) (ops : List Op), subscribeCount ops ≤ SIZE_MAX + 1 →
        (run env ops EventBus.empty).subscribers_.Pairwise Subscriber.before) := by
  refine ⟨?_, ?_, subscribe_appends_to_priority, ?_⟩
  · intro env ops
    exact priority_sorted_run env ops EventBus.empty List.Pairwise.nil
  · intro env ops
    have hinv := ledger_invariant_run ops Ledger.empty ledger_invariant_empty
    have hcount : (ledgerRun ops Ledger.empty).count = subscribeCount ops := by
      rw [ledgerRun_count]
      exact Nat.zero_add _
    refine ⟨ledgerRun_bus env ops Ledger.empty, hinv.2.2, ?_⟩
    intro e he
    have h2 := hinv.2.1 e he
    rw [hcount] at h2
    exact h2
  · intro env ops hc
    exact (fresh_run env ops 0 EventBus.empty fresh_empty (by omega)).1.2.2

/-- Witness of C14: subscriptions, an update and an unsubscribe on a new bus. -/
theorem C14_ordering_invariant_witness :
    subscribeCount [Op.subscribe 0 1 1, Op.subscribe 0 2 10, Op.updateCallback 0 (Callback.direct 4),
        Op.subscribe 0 3 10, Op.unsubscribe 1, Op.publish ⟨0, 0⟩] ≤ SIZE_MAX + 1 ∧
    (run quietEnv [Op.subscribe 0 1 1, Op.subscribe 0 2 10, Op.updateCallback 0 (Callback.direct 4),
        Op.subscribe 0 3 10, Op.unsubscribe 1, Op.publish ⟨0, 0⟩]
      EventBus.empty).subscribers_.Pairwise Subscriber.before :=
  ⟨by decide, C14_ordering_invariant.2.2.2 quietEnv _ (by decide)⟩

/-- Counterexample to C14 as stated: the state reached by `wrapOps` holds two records of
priority `0`, the first with the id `SIZE_MAX` and the second, registered after it, with the
id `0`. -/
theorem C14_counterexample :
    (run quietEnv wrapOps EventBus.empty).subscribers_ =
        [{ callback := Callback.wrapper 0 1, priority := 0, id := SIZE_MAX },
         { callback := Callback.wrapper 0 2, priority := 0, id := 0 }] ∧
      ¬ (run quietEnv wrapOps EventBus.empty).subscribers_.Pairwise Subscriber.before := by
  rw [run_wrapOps]
  refine ⟨rfl, ?_⟩
  intro h
  have h2 : Subscriber.before { callback := Callback.wrapper 0 1, priority := 0, id := SIZE_MAX }
      { callback := Callback.wrapper 0 2, priority := 0, id := 0 } :=
    (List.pairwise_cons.1 h).1 _ (List.mem_cons_self _ _)
  exact absurd (h2.2 rfl) (Nat.not_lt_zero _)

/-! ## C15: where subscribe puts the new record -/

theorem stableInsert_front {α : Type} (comp : α → α → Bool) (y : α) (m : List α)
    (h : ∀ z ∈ m, comp z y = false) : stableInsert comp y m = y :: m := by
  cases m with
  | nil => rfl
  | cons z zs =>
    unfold stableInsert
    rw [h z (List.mem_cons_self _ _)]
    rfl

theorem foldr_stableInsert_sorted (x : Subscriber) (l : List Subscriber)
    (hl : l.Pairwise (fun a b => b.priority ≤ a.priority)) :
    l.foldr (stableInsert priorityGreater) [x] =
      l.takeWhile (fun s => decide (x.priority ≤ s.priority)) ++
        x :: l.dropWhile (fun s => decide (x.priority ≤ s.priority)) := by
  induction l with
  | nil => rfl
  | cons y ys ih =>
    rw [List.pairwise_cons] at hl
    rw [List.foldr_cons, ih hl.2]
    by_cases hy : x.priority ≤ y.priority
    · have e1 : (y :: ys).takeWhile (fun s => decide (x.priority ≤ s.priority)) =
          y :: ys.takeWhile (fun s => decide (x.priority ≤ s.priority)) := by
        simp [List.takeWhile_cons, hy]
      have e2 : (y :: ys).dropWhile (fun s => decide (x.priority ≤ s.priority)) =
          ys.dropWhile (fun s => decide (x.priority ≤ s.priority)) := by
        simp [List.dropWhile_cons, hy]
      rw [e1, e2, List.cons_append]
      apply stableInsert_front
      intro z hz
      have hz2 : z.priority ≤ y.priority := by
        rcases List.mem_append.1 hz with hz' | hz'
        · exact hl.1 z ((List.takeWhile_sublist _).subset hz')
        · rcases List.mem_cons.1 hz' with rfl | hz''
          · exact hy
          · exact hl.1 z ((List.dropWhile_sublist _).subset hz'')
      simpa [priorityGreater] using hz2
    · have hlt : y.priority < x.priority := lt_of_not_ge hy
      have e1 : (y :: ys).takeWhile (fun s => decide (x.priority ≤ s.priority)) = [] := by
        simp [List.takeWhile_cons, hy]
      have e2 : (y :: ys).dropWhile (fun s => decide (x.priority ≤ s.priority)) = y :: ys := by
        simp [List.dropWhile_cons, hy]
      have e3 : ys.takeWhile (fun s => decide (x.priority ≤ s.priority)) = [] := by
        cases ys with
        | nil => rfl
        | cons z zs =>
          have hz : ¬ x.priority ≤ z.priority := by
            have := hl.1 z (List.mem_cons_self _ _)
            omega
          simp [List.takeWhile_cons, hz]
      have e4 : ys.dropWhile (fun s => decide (x.priority ≤ s.priority)) = ys := by
        cases ys with
        | nil => rfl
        | cons z zs =>
          have hz : ¬ x.priority ≤ z.priority := by
            have := hl.1 z (List.mem_cons_self _ _)
            omega
          simp [List.dropWhile_cons, hz]
      rw [e1, e2, e3, e4, List.nil_append, List.nil_append]
      have hc : priorityGreater x y = true := by simpa [priorityGreater] using hlt
      show stableInsert priorityGreater y (x :: ys) = _
      unfold stableInsert
      rw [if_pos hc]
      congr 1
      apply stableInsert_front
      intro z hz
      simpa [priorityGreater] using hl.1 z hz

theorem dropWhile_below (p : Int) (l : List Subscriber)
    (hl : l.Pairwise (fun a b => b.priority ≤ a.priority)) :
    ∀ s ∈ l.dropWhile (fun s => decide (p ≤ s.priority)), s.priority < p := by
  induction l with
  | nil => intro s hs; cases hs
  | cons y ys ih =>
    rw [List.pairwise_cons] at hl
    by_cases hy : p ≤ y.priority
    · have e : (y :: ys).dropWhile (fun s => decide (p ≤ s.priority)) =
          ys.dropWhile (fun s => decide (p ≤ s.priority)) := by
        simp [List.dropWhile_cons, hy]
      rw [e]
      exact ih hl.2
    · have e : (y :: ys).dropWhile (fun s => decide (p ≤ s.priority)) = y :: ys := by
        simp [List.dropWhile_cons, hy]
      rw [e]
      intro s hs
      rcases List.mem_cons.1 hs with rfl | hs'
      · omega
      · have := hl.1 s hs'
        omega

/-- C15: on a registry whose records are in non-increasing priority order (the ordering
invariant asks for this and more), `subscribe` with priority `p` gives the former sequence
with the new record put in behind the last record of priority at least `p` and in front of
the first record of priority below `p`: the records in front all have priority at least `p`,
the records behind all have priority below `p`, the length grows by one, and every former
record is still there, unchanged and in the same relative order. -/
theorem C15_subscribe_inserts (bus : EventBus) (T : TypeId) (callback : Handler) (p : Int)
    (hsorted : bus.subscribers_.Pairwise (fun a b => b.priority ≤ a.priority)) :
    (bus.subscribe T callback p).1.subscribers_ =
        bus.subscribers_.takeWhile (fun s => decide (p ≤ s.priority)) ++
          { callback := Callback.wrapper T callback, priority := p, id := bus.nextId_ } ::
            bus.subscribers_.dropWhile (fun s => decide (p ≤ s.priority)) ∧
    bus.subscribers_.takeWhile (fun s => decide (p ≤ s.priority)) ++
        bus.subscribers_.dropWhile (fun s => decide (p ≤ s.priority)) = bus.subscribers_ ∧
    (∀ s ∈ bus.subscribers_.takeWhile (fun s => decide (p ≤ s.priority)), p ≤ s.priority) ∧
    (∀ s ∈ bus.subscribers_.dropWhile (fun s => decide (p ≤ s.priority)), s.priority < p) ∧
    (bus.subscribe T callback p).1.subscribers_.length = bus.subscribers_.length + 1 ∧
    bus.subscribers_.Sublist (bus.subscribe T callback p).1.subscribers_ := by
  have h1 : (bus.subscribe T callback p).1.subscribers_ =
      bus.subscribers_.takeWhile (fun s => decide (p ≤ s.priority)) ++
        { callback := Callback.wrapper T callback, priority := p, id := bus.nextId_ } ::
          bus.subscribers_.dropWhile (fun s => decide (p ≤ s.priority)) := by
    rw [subscribe_subscribers]
    exact foldr_stableInsert_sorted _ _ hsorted
  have h2 := List.takeWhile_append_dropWhile (fun s : Subscriber => decide (p ≤ s.priority))
    bus.subscribers_
  refine ⟨h1, h2, ?_, dropWhile_below p _ hsorted, ?_, ?_⟩
  · intro s hs
    simpa using List.mem_takeWhile_imp hs
  · rw [h1]
    conv_rhs => rw [← h2]
    simp only [List.length_append, List.length_cons]
    omega
  · rw [h1]
    conv_lhs => rw [← h2]
    exact List.Sublist.append (List.Sublist.refl _) (List.sublist_cons_self _ _)

/-- Witness of C15: the third subscription of `example2_priority.cpp`, priority 10, goes
behind the record of priority 10 and in front of the record of priority 1. -/
theorem C15_subscribe_inserts_witness :
    (run quietEnv [Op.subscribe 0 1 1, Op.subscribe 0 2 10] EventBus.empty).subscribers_.Pairwise
        (fun a b => b.priority ≤ a.priority) ∧
    ((run quietEnv [Op.subscribe 0 1 1, Op.subscribe 0 2 10] EventBus.empty).subscribe
        0 3 10).1.subscribers_.length =
      (run quietEnv [Op.subscribe 0 1 1, Op.subscribe 0 2 10] EventBus.empty).subscribers_.length +
        1 :=
  ⟨by decide,
   (C15_subscribe_inserts (run quietEnv [Op.subscribe 0 1 1, Op.subscribe 0 2 10] EventBus.empty)
     0 3 10 (by decide)).2.2.2.2.1⟩

/-! ## C16 and C17: what updateCallback and unsubscribe leave alone -/

/-- C16: a successful `updateCallback(id, f)` replaces the callback of one record, the first
with the id, and nothing else: the records in front of it and behind it are the same, the
record keeps its place, id and priority, the number of records, the sequence of (priority,
id) keys, that is the dispatch order, and the id counter are unchanged. -/
theorem C16_updateCallback_frame (bus : EventBus) (id : Nat) (f : Callback)
    (hok : (bus.updateCallback id f).1 = true) :
    (∃ pre r post, bus.subscribers_ = pre ++ r :: post ∧ r.id = id ∧ (∀ s ∈ pre, s.id ≠ id) ∧
      (bus.updateCallback id f).2.subscribers_ =
        pre ++ { callback := f, priority := r.priority, id := r.id } :: post) ∧
    (bus.updateCallback id f).2.subscribers_.length = bus.subscribers_.length ∧
    (bus.updateCallback id f).2.subscribers_.map Subscriber.key =
      bus.subscribers_.map Subscriber.key ∧
    (bus.updateCallback id f).2.nextId_ = bus.nextId_ := by
  have hex : ∃ s ∈ bus.subscribers_, s.id = id := by
    by_contra hne
    have habs : ∀ s ∈ bus.subscribers_, s.id ≠ id := fun s hs hid => hne ⟨s, hs, hid⟩
    have hfalse := (updateFirst_false_iff id f bus.subscribers_).2 habs
    have hok2 : (updateFirst id f bus.subscribers_).1 = true := hok
    rw [hfalse] at hok2
    cases hok2
  obtain ⟨pre, r, post, e, hr, hp⟩ := first_with_id id bus.subscribers_ hex
  have hu := updateFirst_at id f pre post r hr hp
  have hkeys : (bus.updateCallback id f).2.subscribers_.map Subscriber.key =
      bus.subscribers_.map Subscriber.key := updateFirst_keys id f bus.subscribers_
  refine ⟨⟨pre, r, post, e, hr, hp, ?_⟩, ?_, hkeys, rfl⟩
  · show (updateFirst id f bus.subscribers_).2 = _
    rw [e, hu]
  · have := congrArg List.length hkeys
    simpa using this

/-- Witness of C16: on the bus of `example2_priority.cpp` the callback of id `2` is
replaced. -/
theorem C16_updateCallback_frame_witness :
    ((run quietEnv [Op.subscribe 0 1 1, Op.subscribe 0 2 10, Op.subscribe 0 3 10]
        EventBus.empty).updateCallback 2 (Callback.direct 9)).1 = true ∧
    ((run quietEnv [Op.subscribe 0 1 1, Op.subscribe 0 2 10, Op.subscribe 0 3 10]
        EventBus.empty).updateCallback 2 (Callback.direct 9)).2.subscribers_.map Subscriber.key =
      (run quietEnv [Op.subscribe 0 1 1, Op.subscribe 0 2 10, Op.subscribe 0 3 10]
        EventBus.empty).subscribers_.map Subscriber.key :=
  ⟨by decide,
   (C16_updateCallback_frame
     (run quietEnv [Op.subscribe 0 1 1, Op.subscribe 0 2 10, Op.subscribe 0 3 10] EventBus.empty)
     2 (Callback.direct 9) (by decide)).2.2.1⟩

/-- C17: `unsubscribe(id)` leaves exactly the records whose id is not `id`, each as it was
and in the same relative order, and leaves the id counter alone; when one record has the id,
the result is the sequence without it; when no record has the id, the bus is as it was. -/
theorem C17_unsubscribe_frame (bus : EventBus) (id : Nat) :
    (bus.unsubscribe id).subscribers_ = bus.subscribers_.filter (fun s => decide (s.id ≠ id)) ∧
    (∀ s, s ∈ (bus.unsubscribe id).subscribers_ ↔ s ∈ bus.subscribers_ ∧ s.id ≠ id) ∧
    (bus.unsubscribe id).subscribers_.Sublist bus.subscribers_ ∧
    (∀ (pre post : List Subscriber) (r : Subscriber), bus.subscribers_ = pre ++ r :: post →
      r.id = id → (∀ s ∈ pre ++ post, s.id ≠ id) →
      (bus.unsubscribe id).subscribers_ = pre ++ post) ∧
    (bus.unsubscribe id).nextId_ = bus.nextId_ ∧
    ((∀ s ∈ bus.subscribers_, s.id ≠ id) → bus.unsubscribe id = bus) := by
  have hf : (bus.unsubscribe id).subscribers_ =
      bus.subscribers_.filter (fun s => decide (s.id ≠ id)) := by
    show bus.subscribers_.filter (fun s => !(decide (s.id = id))) = _
    congr 1
    funext s
    simp
  refine ⟨hf, ?_, ?_, ?_, rfl, unsubscribe_absent bus id⟩
  · intro s
    rw [hf, List.mem_filter]
    simp
  · rw [hf]
    exact List.filter_sublist _
  · intro pre post r e hr hothers
    rw [hf, e, List.filter_append, List.filter_cons]
    have h1 : pre.filter (fun s => decide (s.id ≠ id)) = pre := by
      rw [List.filter_eq_self]
      intro s hs
      simpa using hothers s (List.mem_append_left _ hs)
    have h2 : post.filter (fun s => decide (s.id ≠ id)) = post := by
      rw [List.filter_eq_self]
      intro s hs
      simpa using hothers s (List.mem_append_right _ hs)
    rw [h1, h2]
    simp [hr]

/-- Witness of C17: the bus of `example2_priority.cpp` holds no record with the id `7`. -/
theorem C17_unsubscribe_frame_witness :
    (∀ s ∈ (run quietEnv [Op.subscribe 0 1 1, Op.subscribe 0 2 10, Op.subscribe 0 3 10]
        EventBus.empty).subscribers_, s.id ≠ 7) ∧
    (run quietEnv [Op.subscribe 0 1 1, Op.subscribe 0 2 10, Op.subscribe 0 3 10]
        EventBus.empty).unsubscribe 7 =
      run quietEnv [Op.subscribe 0 1 1, Op.subscribe 0 2 10, Op.subscribe 0 3 10]
        EventBus.empty :=
  ⟨by decide,
   (C17_unsubscribe_frame
     (run quietEnv [Op.subscribe 0 1 1, Op.subscribe 0 2 10, Op.subscribe 0 3 10] EventBus.empty)
     7).2.2.2.2.2 (by decide)⟩

end TsukinoEventBus
